import Mathlib

/-!
# PCI configuration-space driver (`drivers/pci.c`, `drivers/pci.h`)

A shallow embedding of the legacy port-mapped PCI configuration mechanism of the
kernel, followed by theorems about it.

* Machine integers are natural numbers; every conversion to `uint8_t`,
  `uint16_t` or `uint32_t` is an explicit reduction modulo `2^8`, `2^16`, `2^32`.
* The port primitives `port_dword_out` / `port_dword_in` (declared in
  `cpu/ports.h`) and the screen routines `kprint` / `kprint_hex` (declared in
  `screen.h`) are outside the driver. The hardware behind the ports is a
  parameter (`PortHw`); every port access and every screen call is recorded in
  the machine state, in chronological order.
* The `for` loops over 8-bit counters are run with fuel: a loop that does not
  finish within the fuel returns `none`.
-/

namespace Pci

/-! ## Constants of `pci.h` -/

/-- Macro `CONFIG_ADDRESS` of `pci.h`: the address port, a 32-bit register. -/
def CONFIG_ADDRESS : Nat := 0xCF8

/-- Macro `CONFIG_DATA` of `pci.h`: the data port, a 32-bit register. -/
def CONFIG_DATA : Nat := 0xCFC

/-- Macro `MAX_BUS` of `pci.h`. -/
def MAX_BUS : Nat := 256

/-- Macro `MAX_SLOT` of `pci.h`. -/
def MAX_SLOT : Nat := 32

/-- Macro `MAX_FUNC` of `pci.h`. -/
def MAX_FUNC : Nat := 8

/-! ## Machine integers -/

/-- Conversion to `uint8_t`. -/
def u8 (x : Nat) : Nat := x % 2 ^ 8

/-- Conversion to `uint16_t`. -/
def u16 (x : Nat) : Nat := x % 2 ^ 16

/-- Conversion to `uint32_t`. -/
def u32 (x : Nat) : Nat := x % 2 ^ 32

/-! ## Ports, screen and machine state -/

/-- One access to an I/O port: a 32-bit write or a 32-bit read with the value read. -/
inductive PortEvent where
  | out (port : Nat) (value : Nat)
  | inp (port : Nat) (value : Nat)
  deriving DecidableEq

/-- One call of a screen routine. -/
inductive ScreenEvent where
  | kprint (message : String)
  | kprint_hex (n : Nat)
  deriving DecidableEq

/-- The hardware behind the I/O ports: how a 32-bit write to a port changes the
hardware state, and what a 32-bit read of a port returns. -/
structure PortHw (σ : Type) where
  out : Nat → Nat → σ → σ
  inp : Nat → σ → Nat × σ

/-- The state the driver runs in: the hardware, the port accesses so far and the
screen calls so far (both oldest first). -/
structure Machine (σ : Type) where
  hw : σ
  trace : List PortEvent
  screen : List ScreenEvent

variable {σ : Type}

/-- Port primitive `port_dword_out(port, data)` of `cpu/ports.h`, called with a
16-bit port number and a 32-bit value: the write reaches the hardware and is recorded. -/
def port_dword_out (P : PortHw σ) (port data : Nat) (m : Machine σ) : Machine σ :=
  { m with
    hw := P.out (u16 port) (u32 data) m.hw
    trace := m.trace ++ [PortEvent.out (u16 port) (u32 data)] }

/-- Port primitive `port_dword_in(port)` of `cpu/ports.h`, called with a 16-bit
port number and returning a 32-bit value: the hardware answers and the read is recorded. -/
def port_dword_in (P : PortHw σ) (port : Nat) (m : Machine σ) : Nat × Machine σ :=
  let r := P.inp (u16 port) m.hw
  (u32 r.1, { m with hw := r.2, trace := m.trace ++ [PortEvent.inp (u16 port) (u32 r.1)] })

/-- Screen routine `kprint(message)` of `screen.h`: the call is recorded. -/
def kprint (message : String) (m : Machine σ) : Machine σ :=
  { m with screen := m.screen ++ [ScreenEvent.kprint message] }

/-- Screen routine `kprint_hex(n)` of `screen.h`: the call is recorded with its
argument as a 32-bit value. -/
def kprint_hex (n : Nat) (m : Machine σ) : Machine σ :=
  { m with screen := m.screen ++ [ScreenEvent.kprint_hex (u32 n)] }

/-! ## Word access to configuration space -/

/-- Function `uint16_t pciConfigReadWord(uint8_t bus, uint8_t slot, uint8_t func,
uint8_t offset)` (lines 14 to 33). -/
def pciConfigReadWord (P : PortHw σ) (bus slot func offset : Nat) (m : Machine σ) :
    Nat × Machine σ :=
  let bus := u8 bus
  let slot := u8 slot
  let func := u8 func
  let offset := u8 offset
  let lbus := u32 bus
  let lslot := u32 slot
  let lfunc := u32 func
  let address := u32 (u32 (lbus <<< 16) ||| u32 (lslot <<< 11) ||| u32 (lfunc <<< 8)
    ||| (offset &&& 0xFC) ||| u32 0x80000000)
  let port := u16 CONFIG_ADDRESS
  let m1 := port_dword_out P port address m
  let port := u16 CONFIG_DATA
  let r := port_dword_in P port m1
  let tmp := u16 ((r.1 >>> ((offset &&& 2) * 8)) &&& 0xFFFF)
  (tmp, r.2)

/-- Function `void pciConfigWriteWord(uint8_t bus, uint8_t slot, uint8_t func,
uint8_t offset, uint16_t data)` (lines 35 to 52). -/
def pciConfigWriteWord (P : PortHw σ) (bus slot func offset data : Nat) (m : Machine σ) :
    Machine σ :=
  let bus := u8 bus
  let slot := u8 slot
  let func := u8 func
  let offset := u8 offset
  let data := u16 data
  let lbus := u32 bus
  let lslot := u32 slot
  let lfunc := u32 func
  let address := u32 (u32 (lbus <<< 16) ||| u32 (lslot <<< 11) ||| u32 (lfunc <<< 8)
    ||| (offset &&& 0xFC) ||| u32 0x80000000)
  let port := u16 CONFIG_ADDRESS
  let m1 := port_dword_out P port address m
  let port := u16 CONFIG_DATA
  port_dword_out P port data m1

/-- Function `uint16_t pciCheckVendor(uint8_t bus, uint8_t slot)` (lines 59 to 69). -/
def pciCheckVendor (P : PortHw σ) (bus slot : Nat) (m : Machine σ) : Nat × Machine σ :=
  let bus := u8 bus
  let slot := u8 slot
  let r := pciConfigReadWord P bus slot 0 0 m
  let vendor := u16 r.1
  if vendor ≠ 0xFFFF then
    let r2 := pciConfigReadWord P bus slot 0 2 r.2
    let device := u16 r2.1
    (device, r2.2)
  else
    (u16 0, r.2)

/-! ## Device header -/

/-- Structure `struct pci_device` of `pci.h`: four 16-bit fields, then eight 8-bit
fields (the field `class` is spelled `class_`). -/
structure pci_device where
  deviceID : Nat
  vendorID : Nat
  status : Nat
  command : Nat
  class_ : Nat
  subclass : Nat
  progIF : Nat
  revisionID : Nat
  bist : Nat
  headerType : Nat
  latencyTimer : Nat
  cacheLineSize : Nat
  deriving DecidableEq

/-- Function `struct pci_device get_pci_device(uint8_t bus, uint8_t slot,
uint8_t func)` (lines 80 to 95). -/
def get_pci_device (P : PortHw σ) (bus slot func : Nat) (m : Machine σ) :
    pci_device × Machine σ :=
  let bus := u8 bus
  let slot := u8 slot
  let func := u8 func
  let r0 := pciConfigReadWord P bus slot func 0x0 m
  let r1 := pciConfigReadWord P bus slot func 0x2 r0.2
  let r2 := pciConfigReadWord P bus slot func 0x4 r1.2
  let r3 := pciConfigReadWord P bus slot func 0x6 r2.2
  let r4 := pciConfigReadWord P bus slot func 0x8 r3.2
  let r5 := pciConfigReadWord P bus slot func 0xA r4.2
  let r6 := pciConfigReadWord P bus slot func 0xC r5.2
  let r7 := pciConfigReadWord P bus slot func 0xE r6.2
  let r8 := pciConfigReadWord P bus slot func 0x10 r7.2
  let r9 := pciConfigReadWord P bus slot func 0x12 r8.2
  let r10 := pciConfigReadWord P bus slot func 0x14 r9.2
  let r11 := pciConfigReadWord P bus slot func 0x16 r10.2
  ({ deviceID := u16 r0.1
     vendorID := u16 r1.1
     status := u16 r2.1
     command := u16 r3.1
     class_ := u8 r4.1
     subclass := u8 r5.1
     progIF := u8 r6.1
     revisionID := u8 r7.1
     bist := u8 r8.1
     headerType := u8 r9.1
     latencyTimer := u8 r10.1
     cacheLineSize := u8 r11.1 }, r11.2)

/-! ## Enumeration -/

/-- A C loop `for (i = start; i < bound; i++) body` over a `uint8_t` counter `i`:
the counter is incremented modulo `2^8`; `none` when the fuel runs out or the
body does not finish. -/
def for_u8 {α : Type} (bound : Nat) (body : Nat → α → Option α) :
    Nat → Nat → α → Option α
  | 0, _, _ => none
  | fuel + 1, i, s =>
    if i < bound then
      match body i s with
      | some s1 => for_u8 bound body fuel (u8 (i + 1)) s1
      | none => none
    else some s

/-- The body of the innermost loop of `get_all_pci_devices` (lines 102 to 111). -/
def get_all_pci_devices_body (P : PortHw σ) (bus slot func : Nat) (m : Machine σ) :
    Machine σ :=
  let r := pciConfigReadWord P bus slot func 0 m
  let vendorID := u16 r.1
  if vendorID ≠ 0xFFFF then
    let d := get_pci_device P bus slot func r.2
    let device := d.1
    let m1 := kprint "Device: " d.2
    let m2 := kprint_hex device.deviceID m1
    let m3 := kprint "Vendor: " m2
    let m4 := kprint_hex device.vendorID m3
    let m5 := kprint "Class: " m4
    kprint_hex device.class_ m5
  else r.2

/-- Function `void get_all_pci_devices()` (lines 97 to 115); the three loop counters
are `uint8_t`, and the bound of the outer (bus) loop is `MAX_SLOT` as in the source. -/
def get_all_pci_devices (P : PortHw σ) (fuel : Nat) (m : Machine σ) : Option (Machine σ) :=
  for_u8 MAX_SLOT (fun bus m =>
    for_u8 MAX_SLOT (fun slot m =>
      for_u8 MAX_FUNC (fun func m =>
        some (get_all_pci_devices_body P bus slot func m)) fuel 0 m) fuel 0 m) fuel 0 m

/-! ## Command and status registers -/

/-- Function `uint16_t get_pci_command_register(uint8_t bus, uint8_t slot,
uint8_t func)` (lines 123 to 125). -/
def get_pci_command_register (P : PortHw σ) (bus slot func : Nat) (m : Machine σ) :
    Nat × Machine σ :=
  let bus := u8 bus
  let slot := u8 slot
  let func := u8 func
  let r := pciConfigReadWord P bus slot func 0x4 m
  (u16 r.1, r.2)

/-- Function `void set_pci_command_register(uint8_t bus, uint8_t slot, uint8_t func,
uint16_t command)` (lines 117 to 121). -/
def set_pci_command_register (P : PortHw σ) (bus slot func command : Nat) (m : Machine σ) :
    Machine σ :=
  let bus := u8 bus
  let slot := u8 slot
  let func := u8 func
  let command := u16 command
  let r := get_pci_command_register P bus slot func m
  let data := u16 r.1
  let data := u16 ((data &&& 0xFF00) ||| command)
  pciConfigWriteWord P bus slot func 0x4 data r.2

/-- Function `uint16_t get_pci_status_register(uint8_t bus, uint8_t slot,
uint8_t func)` (lines 159 to 161). -/
def get_pci_status_register (P : PortHw σ) (bus slot func : Nat) (m : Machine σ) :
    Nat × Machine σ :=
  let bus := u8 bus
  let slot := u8 slot
  let func := u8 func
  let r := pciConfigReadWord P bus slot func 0x6 m
  (u16 r.1, r.2)

/-- Structure `struct command_register` of `pci.h`: eleven one-bit fields, each a
boolean here, and five reserved bits. -/
structure command_register where
  ioSpaceEnable : Bool
  memSpaceEnable : Bool
  busMasterEnable : Bool
  specialCycles : Bool
  memWriteAndInvalidateEnable : Bool
  vgaPaletteSnoop : Bool
  parityErrorResponse : Bool
  idselSteppingControl : Bool
  serrEnable : Bool
  fastBackToBackEnable : Bool
  interruptDisable : Bool
  reserved : Nat
  deriving DecidableEq

/-- Function `uint16_t command_register_to_int(struct command_register command)`
(lines 127 to 141). -/
def command_register_to_int (command : command_register) : Nat :=
  let data := u16 0
  let data := u16 (data ||| (command.ioSpaceEnable.toNat <<< 0))
  let data := u16 (data ||| (command.memSpaceEnable.toNat <<< 1))
  let data := u16 (data ||| (command.busMasterEnable.toNat <<< 2))
  let data := u16 (data ||| (command.specialCycles.toNat <<< 3))
  let data := u16 (data ||| (command.memWriteAndInvalidateEnable.toNat <<< 4))
  let data := u16 (data ||| (command.vgaPaletteSnoop.toNat <<< 5))
  let data := u16 (data ||| (command.parityErrorResponse.toNat <<< 6))
  let data := u16 (data ||| (command.idselSteppingControl.toNat <<< 7))
  let data := u16 (data ||| (command.serrEnable.toNat <<< 8))
  let data := u16 (data ||| (command.fastBackToBackEnable.toNat <<< 9))
  let data := u16 (data ||| (command.interruptDisable.toNat <<< 10))
  data

/-! ## Specification-side definitions -/

/-- The configuration address of the layout comment of `pci.c` (lines 3 to 12):
enable bit 31, bus in bits 23..16, slot in bits 15..11, function in bits 10..8,
register offset with its two low bits cleared in bits 7..0. -/
def config_address (bus slot func offset : Nat) : Nat :=
  0x80000000 ||| (bus <<< 16) ||| (slot <<< 11) ||| (func <<< 8) ||| (offset &&& 0xFC)

/-- The 16-bit half of a data-port value that `pciConfigReadWord` returns for a
register offset (line 31). -/
def select_word (offset v : Nat) : Nat :=
  u16 ((v >>> ((offset &&& 2) * 8)) &&& 0xFFFF)

/-- Hardware with nothing behind the ports: writes are ignored and every read
returns all ones (the "no device present" response). -/
def absent_hw : PortHw Unit where
  out := fun _ _ s => s
  inp := fun _ s => (0xFFFFFFFF, s)

/-- A machine that has made no port access and no screen call yet. -/
def boot (hw : σ) : Machine σ := { hw := hw, trace := [], screen := [] }

/-- The scan as nested folds: buses `0..31`, slots `0..31`, functions `0..7`, in
ascending order, running the loop body at each triple. -/
def scan_fold (P : PortHw σ) (m : Machine σ) : Machine σ :=
  (List.range' 0 32).foldl (fun m bus =>
    (List.range' 0 32).foldl (fun m slot =>
      (List.range' 0 8).foldl (fun m func =>
        get_all_pci_devices_body P bus slot func m) m) m) m

/-! ## A simulated configuration space behind the port pair -/

/-- Bus number held in bits 23..16 of a configuration address. -/
def address_bus (a : Nat) : Nat := (a >>> 16) &&& 0xFF

/-- Slot (device) number held in bits 15..11 of a configuration address. -/
def address_slot (a : Nat) : Nat := (a >>> 11) &&& 0x1F

/-- Function number held in bits 10..8 of a configuration address. -/
def address_func (a : Nat) : Nat := (a >>> 8) &&& 0x7

/-- Register offset (a multiple of 4) held in bits 7..0 of a configuration address. -/
def address_register (a : Nat) : Nat := a &&& 0xFC

/-- State of the simulated hardware: the value last written to the address port
and the dword held by every register, by bus, slot, function and register offset. -/
structure SimState where
  latch : Nat
  space : Nat → Nat → Nat → Nat → Nat

/-- Simulated configuration mechanism: a write to 0xCF8 latches the address; with
the enable bit of the latched address set, a read of 0xCFC returns the dword the
latched address selects and a write to 0xCFC stores the value into that dword. -/
def sim_hw : PortHw SimState where
  out := fun port value s =>
    if port = 0xCF8 then { s with latch := value }
    else if port = 0xCFC then
      if s.latch.testBit 31 then
        { s with space := fun b d f r =>
            if b = address_bus s.latch ∧ d = address_slot s.latch ∧ f = address_func s.latch
              ∧ r = address_register s.latch then value else s.space b d f r }
      else s
    else s
  inp := fun port s =>
    if port = 0xCFC then
      (if s.latch.testBit 31 then
        s.space (address_bus s.latch) (address_slot s.latch) (address_func s.latch)
          (address_register s.latch)
       else 0xFFFFFFFF, s)
    else if port = 0xCF8 then (s.latch, s)
    else (0xFFFFFFFF, s)

/-- The word a read at a register offset returns from a configuration space. -/
def sim_word (space : Nat → Nat → Nat → Nat → Nat) (bus slot func offset : Nat) : Nat :=
  select_word offset (u32 (space bus slot func (offset &&& 0xFC)))

/-- The two port accesses of one word read from a configuration space. -/
def sim_read_events (space : Nat → Nat → Nat → Nat → Nat) (bus slot func offset : Nat) :
    List PortEvent :=
  [PortEvent.out 0xCF8 (config_address bus slot func offset),
   PortEvent.inp 0xCFC (u32 (space bus slot func (offset &&& 0xFC)))]

/-! ## Reading the device header -/

/-- The fields of a descriptor in the order `struct pci_device` declares them. -/
def pci_device.fields (d : pci_device) : List Nat :=
  [d.deviceID, d.vendorID, d.status, d.command, d.class_, d.subclass, d.progIF,
   d.revisionID, d.bist, d.headerType, d.latencyTimer, d.cacheLineSize]

/-- The 32-bit values the data port returns when the registers at the given
offsets of one function are read one after the other, and the hardware state
after the last read. -/
def raw_reads (P : PortHw σ) (bus slot func : Nat) : List Nat → σ → List Nat × σ
  | [], hw => ([], hw)
  | offset :: rest, hw =>
    let r := P.inp 0xCFC (P.out 0xCF8 (config_address bus slot func offset) hw)
    let rs := raw_reads P bus slot func rest r.2
    (u32 r.1 :: rs.1, rs.2)

/-- The descriptor `get_pci_device` builds from a simulated configuration space. -/
def sim_descriptor (space : Nat → Nat → Nat → Nat → Nat) (bus slot func : Nat) : pci_device :=
  { deviceID := u16 (sim_word space bus slot func 0x0)
    vendorID := u16 (sim_word space bus slot func 0x2)
    status := u16 (sim_word space bus slot func 0x4)
    command := u16 (sim_word space bus slot func 0x6)
    class_ := u8 (sim_word space bus slot func 0x8)
    subclass := u8 (sim_word space bus slot func 0xA)
    progIF := u8 (sim_word space bus slot func 0xC)
    revisionID := u8 (sim_word space bus slot func 0xE)
    bist := u8 (sim_word space bus slot func 0x10)
    headerType := u8 (sim_word space bus slot func 0x12)
    latencyTimer := u8 (sim_word space bus slot func 0x14)
    cacheLineSize := u8 (sim_word space bus slot func 0x16) }

/-- The port accesses of the twelve header reads from a simulated configuration space. -/
def sim_descriptor_events (space : Nat → Nat → Nat → Nat → Nat) (bus slot func : Nat) :
    List PortEvent :=
  [0x0, 0x2, 0x4, 0x6, 0x8, 0xA, 0xC, 0xE, 0x10, 0x12, 0x14, 0x16].flatMap
    (sim_read_events space bus slot func)

/-- Whether a function answers the vendor probe of the scan: the word at offset 0
differs from 0xFFFF. -/
def sim_present (space : Nat → Nat → Nat → Nat → Nat) (bus slot func : Nat) : Bool :=
  decide (u16 (sim_word space bus slot func 0) ≠ 0xFFFF)

/-- The port accesses of one iteration of the scan over a simulated configuration
space: the vendor probe, then the header reads if the function answered. -/
def sim_probe_events (space : Nat → Nat → Nat → Nat → Nat) (bus slot func : Nat) :
    List PortEvent :=
  sim_read_events space bus slot func 0 ++
    (if sim_present space bus slot func then sim_descriptor_events space bus slot func else [])

/-- The screen calls of one iteration of the scan over a simulated configuration space. -/
def sim_report (space : Nat → Nat → Nat → Nat → Nat) (bus slot func : Nat) :
    List ScreenEvent :=
  if sim_present space bus slot func then
    [ScreenEvent.kprint "Device: ",
     ScreenEvent.kprint_hex (sim_descriptor space bus slot func).deviceID,
     ScreenEvent.kprint "Vendor: ",
     ScreenEvent.kprint_hex (sim_descriptor space bus slot func).vendorID,
     ScreenEvent.kprint "Class: ",
     ScreenEvent.kprint_hex (sim_descriptor space bus slot func).class_]
  else []

/-! ## Example configuration spaces -/

/-- A configuration space with exactly one device, at bus 0, slot 5, function 0:
vendor ID 0x8086 and device ID 0x100E (dword 0x0), status 0x0210 and command
0x0007 (dword 0x4), class 0x02, subclass 0x00, programming interface 0x00 and
revision 0x03 (dword 0x8), BIST 0x40, header type 0x80, latency timer 0x20 and
cache line size 0x10 (dword 0xC); every other function answers all ones. -/
def single_device_space : Nat → Nat → Nat → Nat → Nat := fun bus slot func register =>
  if bus = 0 ∧ slot = 5 ∧ func = 0 then
    if register = 0x0 then 0x100E8086
    else if register = 0x4 then 0x02100007
    else if register = 0x8 then 0x02000003
    else if register = 0xC then 0x40802010
    else if register = 0x10 then 0xFEBC0000
    else if register = 0x14 then 0x0000C001
    else 0
  else 0xFFFFFFFF

/-- A configuration space with exactly one device, at bus 32, slot 0, function 0
(vendor ID 0x8086, device ID 0x100E); every other function answers all ones. -/
def bus32_device_space : Nat → Nat → Nat → Nat → Nat := fun bus slot func register =>
  if bus = 32 ∧ slot = 0 ∧ func = 0 then
    if register = 0x0 then 0x100E8086 else 0
  else 0xFFFFFFFF

/-! ## Command register codec -/

/-- Modelled from the spec: the decoder of the command register is not in the
source; the spec fixes it as the inverse of `command_register_to_int`, flag `i`
being bit `i` of the word for `i` in `0..10` (the reserved bits are set to 0). -/
def decode_command_register (w : Nat) : command_register :=
  { ioSpaceEnable := w.testBit 0
    memSpaceEnable := w.testBit 1
    busMasterEnable := w.testBit 2
    specialCycles := w.testBit 3
    memWriteAndInvalidateEnable := w.testBit 4
    vgaPaletteSnoop := w.testBit 5
    parityErrorResponse := w.testBit 6
    idselSteppingControl := w.testBit 7
    serrEnable := w.testBit 8
    fastBackToBackEnable := w.testBit 9
    interruptDisable := w.testBit 10
    reserved := 0 }

/-- The eleven flags of a command register in declared order. -/
def command_register.flags (c : command_register) : List Bool :=
  [c.ioSpaceEnable, c.memSpaceEnable, c.busMasterEnable, c.specialCycles,
   c.memWriteAndInvalidateEnable, c.vgaPaletteSnoop, c.parityErrorResponse,
   c.idselSteppingControl, c.serrEnable, c.fastBackToBackEnable, c.interruptDisable]

/-- A configuration space in which every dword of every function holds 0x0290AB10:
the command register of every function reads 0xAB10. -/
def command_ab10_space : Nat → Nat → Nat → Nat → Nat := fun _ _ _ _ => 0x0290AB10

/-- A configuration space in which every dword of every function holds 0. -/
def zero_space : Nat → Nat → Nat → Nat → Nat := fun _ _ _ _ => 0

/-- A configuration space with exactly one device, at bus 0, slot 5, function 0,
whose vendor ID is 0x8086 and whose device ID is 0 (dword 0x0 = 0x00008086);
every other function answers all ones. -/
def zero_device_id_space : Nat → Nat → Nat → Nat → Nat := fun bus slot func register =>
  if bus = 0 ∧ slot = 5 ∧ func = 0 then
    if register = 0x0 then 0x00008086 else 0
  else 0xFFFFFFFF


/-! ## Properties of port traces -/

/-- Whether a port access is an access (read or write) to the data port 0xCFC. -/
def is_data_access : PortEvent → Bool
  | PortEvent.out port _ => port == 0xCFC
  | PortEvent.inp port _ => port == 0xCFC

/-- The configuration addresses of one function: `config_address bus slot func o`
for an 8-bit register offset `o`. -/
def function_address (bus slot func : Nat) (a : Nat) : Prop :=
  ∃ o, o < 256 ∧ a = config_address bus slot func o

/-- The configuration addresses of the functions with bus below 32, slot below 32
and function below 8. -/
def scan_address (a : Nat) : Prop :=
  ∃ b s f o, b < 32 ∧ s < 32 ∧ f < 8 ∧ o < 256 ∧ a = config_address b s f o

/-- A trace that is a sequence of logical accesses: each is a write of an
address satisfying `ok` to the address port, immediately followed by one read of
the data port or, when `wr` is true, possibly one write to the data port. -/
inductive AccessPairs (ok : Nat → Prop) (wr : Bool) : List PortEvent → Prop where
  | nil : AccessPairs ok wr []
  | read (a v : Nat) (rest : List PortEvent) : ok a → AccessPairs ok wr rest →
      AccessPairs ok wr (PortEvent.out 0xCF8 a :: PortEvent.inp 0xCFC v :: rest)
  | write (a d : Nat) (rest : List PortEvent) : wr = true → ok a → AccessPairs ok wr rest →
      AccessPairs ok wr (PortEvent.out 0xCF8 a :: PortEvent.out 0xCFC d :: rest)

/-- A machine `m2` reached from `m` by read accesses only: the trace grew by
address-write and data-read pairs with addresses satisfying `ok`, and every
property of the hardware state that a read access preserves still holds. -/
def ReadOnlyStep (P : PortHw σ) (ok : Nat → Prop) (m m2 : Machine σ) : Prop :=
  ∃ ts, m2.trace = m.trace ++ ts ∧ AccessPairs ok false ts ∧
    ∀ I : σ → Prop, (∀ a hw, I hw → I (P.inp 0xCFC (P.out 0xCF8 a hw)).2) → I m.hw → I m2.hw

/-- A machine `m2` reached from `m` by `c` vendor probes of which `k` answered:
the trace grew by `c + 12 * k` accesses of two port events each, and the screen
by `k` records of six calls each. -/
def ScanCount (c : Nat) (m m2 : Machine σ) : Prop :=
  ∃ k, m2.trace.length = m.trace.length + 2 * (c + 12 * k) ∧
    m2.screen.length = m.screen.length + 6 * k


/-- Whether a port access is a write to the data port 0xCFC. -/
def is_data_write : PortEvent → Bool
  | PortEvent.out port _ => port == 0xCFC
  | PortEvent.inp _ _ => false

/-- The trace `t1` extends the trace `t0` by accesses none of which is a write to
the data port 0xCFC. -/
def no_data_write (t0 t1 : List PortEvent) : Prop :=
  ∃ ts, t1 = t0 ++ ts ∧ ∀ d, PortEvent.out 0xCFC d ∉ ts


/-! ## Protocol ordering against the logical accesses of an operation -/

/-- Protocol ordering of a trace against the logical accesses it performs, given
in order by their coordinates `(bus, slot, func, offset)`: the trace has two
events for each access; the `j`-th access is a write of its own configuration
address to the address port 0xCF8 immediately followed by an access to the data
port 0xCFC; and every access to the data port found in the trace is the data
access of some `j`-th logical access and is immediately preceded by the write of
that access's own configuration address to the address port. -/
def protocol_ordered (coords : List (Nat × Nat × Nat × Nat)) (ts : List PortEvent) : Prop :=
  ts.length = 2 * coords.length ∧
  (∀ j c, coords[j]? = some c →
    ts[2 * j]? = some (PortEvent.out 0xCF8 (config_address c.1 c.2.1 c.2.2.1 c.2.2.2)) ∧
    ∃ e, ts[2 * j + 1]? = some e ∧ is_data_access e = true) ∧
  (∀ i e, ts[i]? = some e → is_data_access e = true →
    ∃ j c, i = 2 * j + 1 ∧ coords[j]? = some c ∧
      ts[i - 1]? = some (PortEvent.out 0xCF8 (config_address c.1 c.2.1 c.2.2.1 c.2.2.2)))

/-- The twelve logical accesses of one header read, in order: offsets 0x0, 0x2,
..., 0x16 of the given function. -/
def header_accesses (bus slot func : Nat) : List (Nat × Nat × Nat × Nat) :=
  [0x0, 0x2, 0x4, 0x6, 0x8, 0xA, 0xC, 0xE, 0x10, 0x12, 0x14, 0x16].map
    (fun o => (bus, slot, func, o))

/-- The logical accesses of one iteration of the scan: the vendor probe at
offset 0, then the header accesses if the function answered the probe. -/
def probe_accesses (bus slot func : Nat) (present : Bool) : List (Nat × Nat × Nat × Nat) :=
  (bus, slot, func, 0) :: (if present then header_accesses bus slot func else [])

/-- The logical accesses of the whole scan, in scan order, given which functions
answered their vendor probe. -/
def scan_accesses (present : Nat → Nat → Nat → Bool) : List (Nat × Nat × Nat × Nat) :=
  (List.range' 0 32).flatMap (fun bus => (List.range' 0 32).flatMap (fun slot =>
    (List.range' 0 8).flatMap (fun func =>
      probe_accesses bus slot func (present bus slot func))))

/-- A trace built access by access from a list of coordinates: each access is
the write of its configuration address to 0xCF8 followed by a read of or a write
to 0xCFC. -/
inductive AccessSeq : List (Nat × Nat × Nat × Nat) → List PortEvent → Prop where
  | nil : AccessSeq [] []
  | read (c : Nat × Nat × Nat × Nat) (v : Nat) (cs : List (Nat × Nat × Nat × Nat))
      (rest : List PortEvent) : AccessSeq cs rest →
      AccessSeq (c :: cs)
        (PortEvent.out 0xCF8 (config_address c.1 c.2.1 c.2.2.1 c.2.2.2) ::
          PortEvent.inp 0xCFC v :: rest)
  | write (c : Nat × Nat × Nat × Nat) (d : Nat) (cs : List (Nat × Nat × Nat × Nat))
      (rest : List PortEvent) : AccessSeq cs rest →
      AccessSeq (c :: cs)
        (PortEvent.out 0xCF8 (config_address c.1 c.2.1 c.2.2.1 c.2.2.2) ::
          PortEvent.out 0xCFC d :: rest)

/-- A machine `m2` reached from `m` by exactly the logical accesses `coords`. -/
def AccessStep (coords : List (Nat × Nat × Nat × Nat)) (m m2 : Machine σ) : Prop :=
  ∃ ts, m2.trace = m.trace ++ ts ∧ AccessSeq coords ts


/-! ## Arithmetic helpers -/

theorem u32_of_lt {x : Nat} (h : x < 2 ^ 32) : u32 x = x := Nat.mod_eq_of_lt h

theorem u16_of_lt {x : Nat} (h : x < 2 ^ 16) : u16 x = x := Nat.mod_eq_of_lt h

theorem u8_of_lt {x : Nat} (h : x < 2 ^ 8) : u8 x = x := Nat.mod_eq_of_lt h

theorem u16_lt (x : Nat) : u16 x < 2 ^ 16 := Nat.mod_lt _ (by decide)

theorem u32_lt (x : Nat) : u32 x < 2 ^ 32 := Nat.mod_lt _ (by decide)

theorem u8_lt (x : Nat) : u8 x < 2 ^ 8 := Nat.mod_lt _ (by decide)

theorem shiftLeft_lt_of_lt {x : Nat} (n k : Nat) (h : x < 2 ^ n) : x <<< k < 2 ^ (n + k) := by
  rw [Nat.shiftLeft_eq, Nat.pow_add]
  exact Nat.mul_lt_mul_of_pos_right h (Nat.two_pow_pos k)

/-- The address expression of lines 22 and 42, on arguments that are already
8-bit values: no conversion changes a value. -/
theorem address_expr_eq (bus slot func offset : Nat)
    (hbus : bus < 256) (hslot : slot < 256) (hfunc : func < 256) :
    u32 (u32 (u32 bus <<< 16) ||| u32 (u32 slot <<< 11) ||| u32 (u32 func <<< 8)
      ||| (offset &&& 0xFC) ||| u32 0x80000000)
    = 0x80000000 ||| (bus <<< 16) ||| (slot <<< 11) ||| (func <<< 8) ||| (offset &&& 0xFC) := by
  have hb : bus <<< 16 < 2 ^ 32 :=
    Nat.lt_of_lt_of_le (shiftLeft_lt_of_lt 8 16 hbus) (by decide)
  have hs : slot <<< 11 < 2 ^ 32 :=
    Nat.lt_of_lt_of_le (shiftLeft_lt_of_lt 8 11 hslot) (by decide)
  have hf : func <<< 8 < 2 ^ 32 :=
    Nat.lt_of_lt_of_le (shiftLeft_lt_of_lt 8 8 hfunc) (by decide)
  have ho : offset &&& 0xFC < 2 ^ 32 :=
    Nat.lt_of_le_of_lt Nat.and_le_right (by decide)
  have he : (0x80000000 : Nat) < 2 ^ 32 := by decide
  rw [u32_of_lt (x := bus) (by omega), u32_of_lt (x := slot) (by omega),
    u32_of_lt (x := func) (by omega), u32_of_lt hb, u32_of_lt hs, u32_of_lt hf, u32_of_lt he,
    u32_of_lt (Nat.or_lt_two_pow (Nat.or_lt_two_pow (Nat.or_lt_two_pow
      (Nat.or_lt_two_pow hb hs) hf) ho) he)]
  rw [Nat.or_comm _ 0x80000000]
  simp only [Nat.or_assoc]


theorem config_address_lt (bus slot func offset : Nat)
    (hbus : bus < 256) (hslot : slot < 256) (hfunc : func < 256) :
    config_address bus slot func offset < 2 ^ 32 := by
  unfold config_address
  exact Nat.or_lt_two_pow (Nat.or_lt_two_pow (Nat.or_lt_two_pow (Nat.or_lt_two_pow (by decide)
    (Nat.lt_of_lt_of_le (shiftLeft_lt_of_lt 8 16 hbus) (by decide)))
    (Nat.lt_of_lt_of_le (shiftLeft_lt_of_lt 8 11 hslot) (by decide)))
    (Nat.lt_of_lt_of_le (shiftLeft_lt_of_lt 8 8 hfunc) (by decide)))
    (Nat.lt_of_le_of_lt Nat.and_le_right (by decide))

/-- One word read, unfolded: an address-port write, then a data-port read. -/
theorem pciConfigReadWord_eq (P : PortHw σ) (m : Machine σ) (bus slot func offset : Nat)
    (hbus : bus < 256) (hslot : slot < 256) (hfunc : func < 256) (hoff : offset < 256) :
    pciConfigReadWord P bus slot func offset m =
      (select_word offset (u32 (P.inp 0xCFC (P.out 0xCF8 (config_address bus slot func offset) m.hw)).1),
       { hw := (P.inp 0xCFC (P.out 0xCF8 (config_address bus slot func offset) m.hw)).2
         trace := m.trace ++ [PortEvent.out 0xCF8 (config_address bus slot func offset),
           PortEvent.inp 0xCFC
             (u32 (P.inp 0xCFC (P.out 0xCF8 (config_address bus slot func offset) m.hw)).1)]
         screen := m.screen }) := by
  have ha := address_expr_eq bus slot func offset hbus hslot hfunc
  have hlt := config_address_lt bus slot func offset hbus hslot hfunc
  have h1 : u16 CONFIG_ADDRESS = 0xCF8 := by decide
  have h2 : u16 CONFIG_DATA = 0xCFC := by decide
  have h3 : u16 0xCF8 = 0xCF8 := by decide
  have h4 : u16 0xCFC = 0xCFC := by decide
  unfold pciConfigReadWord port_dword_in port_dword_out select_word
  simp only [u8_of_lt (x := bus) hbus, u8_of_lt (x := slot) hslot, u8_of_lt (x := func) hfunc,
    u8_of_lt (x := offset) hoff, ha, h1, h2, h3, h4]
  unfold config_address at hlt ⊢
  simp only [u32_of_lt hlt, List.append_assoc, List.singleton_append]


theorem pciConfigWriteWord_eq (P : PortHw σ) (m : Machine σ) (bus slot func offset data : Nat)
    (hbus : bus < 256) (hslot : slot < 256) (hfunc : func < 256) (hoff : offset < 256) :
    pciConfigWriteWord P bus slot func offset data m =
      { hw := P.out 0xCFC (u16 data) (P.out 0xCF8 (config_address bus slot func offset) m.hw)
        trace := m.trace ++ [PortEvent.out 0xCF8 (config_address bus slot func offset),
           PortEvent.out 0xCFC (u16 data)]
        screen := m.screen } := by
  have ha := address_expr_eq bus slot func offset hbus hslot hfunc
  have hlt := config_address_lt bus slot func offset hbus hslot hfunc
  have h1 : u16 CONFIG_ADDRESS = 0xCF8 := by decide
  have h2 : u16 CONFIG_DATA = 0xCFC := by decide
  have h3 : u16 0xCF8 = 0xCF8 := by decide
  have h4 : u16 0xCFC = 0xCFC := by decide
  have h5 : u32 (u16 data) = u16 data :=
    u32_of_lt (Nat.lt_of_lt_of_le (u16_lt data) (by decide))
  unfold pciConfigWriteWord port_dword_out
  simp only [u8_of_lt (x := bus) hbus, u8_of_lt (x := slot) hslot, u8_of_lt (x := func) hfunc,
    u8_of_lt (x := offset) hoff, ha, h1, h2, h3, h4, h5]
  unfold config_address at hlt ⊢
  simp only [u32_of_lt hlt, List.append_assoc, List.singleton_append]

theorem config_address_testBit (bus slot func offset i : Nat) :
    (config_address bus slot func offset).testBit i =
      (decide (i = 31) || (decide (16 ≤ i) && bus.testBit (i - 16))
        || (decide (11 ≤ i) && slot.testBit (i - 11))
        || (decide (8 ≤ i) && func.testBit (i - 8))
        || (offset.testBit i && decide (2 ≤ i) && decide (i < 8))) := by
  have h31 : (0x80000000 : Nat) = 2 ^ 31 := by decide
  unfold config_address
  rw [h31]
  simp only [Nat.testBit_or, Nat.testBit_shiftLeft, Nat.testBit_and, Nat.testBit_two_pow, ge_iff_le]
  have : (0xFC : Nat).testBit i = (decide (2 ≤ i) && decide (i < 8)) := by
    by_cases h : i < 8
    · interval_cases i <;> decide
    · have : (0xFC : Nat) < 2 ^ i :=
        Nat.lt_of_lt_of_le (by decide : (0xFC : Nat) < 2 ^ 8) (Nat.pow_le_pow_right (by decide) (by omega))
      simp [Nat.testBit_lt_two_pow this, h]
  rw [this]
  have h31i : decide (31 = i) = decide (i = 31) := by
    by_cases h : i = 31 <;> simp [h, eq_comm]
  rw [h31i, Bool.and_assoc]


theorem testBit_eq_false_of_lt {x k j : Nat} (h : x < 2 ^ k) (hkj : k ≤ j) :
    x.testBit j = false :=
  Nat.testBit_lt_two_pow (Nat.lt_of_lt_of_le h (Nat.pow_le_pow_right (by decide) hkj))

theorem and_two_cases (x : Nat) : x &&& 2 = 0 ∨ x &&& 2 = 2 := by
  have h1 : x &&& 2 ≤ 2 := Nat.and_le_right
  have h2 : ¬ ((x &&& 2) % 2 = 1) := by
    rw [Nat.and_mod_two_eq_one]
    omega
  omega

theorem and_ffff_eq_mod (x : Nat) : x &&& 0xFFFF = x % 2 ^ 16 :=
  Nat.and_pow_two_sub_one_eq_mod x 16

theorem select_word_low (offset v : Nat) (h : offset &&& 2 = 0) :
    select_word offset v = v &&& 0xFFFF := by
  unfold select_word u16
  rw [h, and_ffff_eq_mod, Nat.zero_mul, Nat.shiftRight_zero, Nat.mod_mod, and_ffff_eq_mod]

theorem select_word_high (offset v : Nat) (h : offset &&& 2 = 2) (hv : v < 2 ^ 32) :
    select_word offset v = v >>> 16 := by
  have hlt : v >>> 16 < 2 ^ 16 := by
    rw [Nat.shiftRight_eq_div_pow]
    omega
  unfold select_word u16
  rw [h, and_ffff_eq_mod, Nat.mod_mod, Nat.mod_eq_of_lt hlt]

/-- Claim C1: for bus in [0,256), slot in [0,32), func in [0,8) and an 8-bit offset, the
value that `pciConfigReadWord` and `pciConfigWriteWord` write to the address
port 0xCF8 is `0x80000000 | bus << 16 | slot << 11 | func << 8 | (offset & 0xFC)`;
bit 31 of it is set, bits 24..30 are clear and bits 0..1 are clear. -/
theorem pci_config_address_written (P : PortHw σ) (m : Machine σ)
    (bus slot func offset data : Nat)
    (hbus : bus < 256) (hslot : slot < 32) (hfunc : func < 8) (hoff : offset < 256) :
    (∃ v, (pciConfigReadWord P bus slot func offset m).2.trace =
      m.trace ++ [PortEvent.out 0xCF8 (config_address bus slot func offset),
        PortEvent.inp 0xCFC v]) ∧
    (∃ d, (pciConfigWriteWord P bus slot func offset data m).trace =
      m.trace ++ [PortEvent.out 0xCF8 (config_address bus slot func offset),
        PortEvent.out 0xCFC d]) ∧
    config_address bus slot func offset =
      0x80000000 ||| (bus <<< 16) ||| (slot <<< 11) ||| (func <<< 8) ||| (offset &&& 0xFC) ∧
    (config_address bus slot func offset).testBit 31 = true ∧
    (∀ i, 24 ≤ i → i ≤ 30 → (config_address bus slot func offset).testBit i = false) ∧
    (config_address bus slot func offset).testBit 0 = false ∧
    (config_address bus slot func offset).testBit 1 = false := by
  have hslot8 : slot < 256 := by omega
  have hfunc8 : func < 256 := by omega
  refine ⟨⟨u32 (P.inp 0xCFC (P.out 0xCF8 (config_address bus slot func offset) m.hw)).1, ?_⟩,
    ⟨u16 data, ?_⟩, rfl, ?_, ?_, ?_, ?_⟩
  · rw [pciConfigReadWord_eq P m bus slot func offset hbus hslot8 hfunc8 hoff]
  · rw [pciConfigWriteWord_eq P m bus slot func offset data hbus hslot8 hfunc8 hoff]
  · rw [config_address_testBit]
    simp
  · intro i h24 h30
    rw [config_address_testBit]
    have hb : bus.testBit (i - 16) = false :=
      testBit_eq_false_of_lt (k := 8) hbus (by omega)
    have hs : slot.testBit (i - 11) = false :=
      testBit_eq_false_of_lt (k := 5) hslot (by omega)
    have hf : func.testBit (i - 8) = false :=
      testBit_eq_false_of_lt (k := 3) hfunc (by omega)
    have h31 : ¬ i = 31 := by omega
    have h8 : ¬ i < 8 := by omega
    simp [hb, hs, hf, h31, h8]
  · rw [config_address_testBit]
    simp
  · rw [config_address_testBit]
    simp

/-- Witness for C1 at bus 0, slot 5, function 0, offset 0x0B. -/
theorem pci_config_address_written_witness :
    config_address 0 5 0 0x0B = 0x80002808 ∧
    (config_address 0 5 0 0x0B).testBit 31 = true ∧
    (config_address 0 5 0 0x0B).testBit 1 = false :=
  have h := pci_config_address_written absent_hw (boot ()) 0 5 0 0x0B 0
    (by decide) (by decide) (by decide) (by decide)
  ⟨by decide, h.2.2.2.1, h.2.2.2.2.2.2⟩

/-- Claim C2: when the data port returns the 32-bit value `v`, `pciConfigReadWord`
returns `v >> 16` if `offset & 2 == 2` and `v & 0xFFFF` if `offset & 2 == 0`
(and one of the two holds). -/
theorem pciConfigReadWord_selects_half (P : PortHw σ) (m : Machine σ)
    (bus slot func offset v : Nat)
    (hbus : bus < 256) (hslot : slot < 256) (hfunc : func < 256) (hoff : offset < 256)
    (hv32 : v < 2 ^ 32)
    (hv : (P.inp 0xCFC (P.out 0xCF8 (config_address bus slot func offset) m.hw)).1 = v) :
    (offset &&& 2 = 2 → (pciConfigReadWord P bus slot func offset m).1 = v >>> 16) ∧
    (offset &&& 2 = 0 → (pciConfigReadWord P bus slot func offset m).1 = v &&& 0xFFFF) ∧
    (offset &&& 2 = 2 ∨ offset &&& 2 = 0) := by
  rw [pciConfigReadWord_eq P m bus slot func offset hbus hslot hfunc hoff, hv, u32_of_lt hv32]
  refine ⟨fun h => select_word_high offset v h hv32, fun h => select_word_low offset v h, ?_⟩
  exact (and_two_cases offset).symm

/-- Witness for C2: with 0xFFFFFFFF on the data port, offset 2 and offset 0. -/
theorem pciConfigReadWord_selects_half_witness :
    (pciConfigReadWord absent_hw 0 5 0 2 (boot ())).1 = 0xFFFFFFFF >>> 16 :=
  (pciConfigReadWord_selects_half absent_hw (boot ()) 0 5 0 2 0xFFFFFFFF
    (by decide) (by decide) (by decide) (by decide) (by decide) rfl).1 (by decide)


/-! ## Loops -/

/-- A loop over an 8-bit counter whose body always finishes and whose bound is
at most 255 finishes as soon as the fuel exceeds the number of remaining
iterations, and it is the fold of its body over the remaining counter values. -/
theorem for_u8_eq_foldl {α : Type} (bound : Nat) (body : Nat → α → Option α)
    (g : Nat → α → α) (hbody : ∀ i s, body i s = some (g i s)) (hbound : bound ≤ 255) :
    ∀ (fuel i : Nat) (s : α), i ≤ bound → bound - i < fuel →
      for_u8 bound body fuel i s =
        some ((List.range' i (bound - i)).foldl (fun s j => g j s) s) := by
  intro fuel
  induction fuel with
  | zero => intro i s _ h; omega
  | succ fuel ih =>
    intro i s hi hfuel
    unfold for_u8
    by_cases hlt : i < bound
    · have hu : u8 (i + 1) = i + 1 := u8_of_lt (by omega)
      have hr : bound - i = (bound - (i + 1)) + 1 := by omega
      rw [if_pos hlt, hbody, hu]
      simp only
      rw [ih (i + 1) (g i s) (by omega) (by omega), hr, List.range'_succ, List.foldl_cons]
    · have hz : bound - i = 0 := by omega
      rw [if_neg hlt, hz]
      rfl

/-- With fuel at least 33 the scan finishes, and it is `scan_fold`. -/
theorem get_all_pci_devices_eq (P : PortHw σ) (fuel : Nat) (m : Machine σ) (hfuel : 33 ≤ fuel) :
    get_all_pci_devices P fuel m = some (scan_fold P m) := by
  unfold get_all_pci_devices scan_fold
  have hfunc : ∀ bus slot (m : Machine σ),
      for_u8 MAX_FUNC (fun func m => some (get_all_pci_devices_body P bus slot func m)) fuel 0 m
        = some ((List.range' 0 8).foldl (fun m func =>
            get_all_pci_devices_body P bus slot func m) m) := by
    intro bus slot m
    exact for_u8_eq_foldl MAX_FUNC _ (fun func m => get_all_pci_devices_body P bus slot func m)
      (fun _ _ => rfl) (by decide) fuel 0 m (Nat.zero_le _) (by simp only [MAX_FUNC]; omega)
  have hslot : ∀ bus (m : Machine σ),
      for_u8 MAX_SLOT (fun slot m =>
        for_u8 MAX_FUNC (fun func m =>
          some (get_all_pci_devices_body P bus slot func m)) fuel 0 m) fuel 0 m
        = some ((List.range' 0 32).foldl (fun m slot =>
            (List.range' 0 8).foldl (fun m func =>
              get_all_pci_devices_body P bus slot func m) m) m) := by
    intro bus m
    exact for_u8_eq_foldl MAX_SLOT _ _ (fun slot m => hfunc bus slot m) (by decide) fuel 0 m
      (Nat.zero_le _) (by simp only [MAX_SLOT]; omega)
  exact for_u8_eq_foldl MAX_SLOT _ _ (fun bus m => hslot bus m) (by decide) fuel 0 m
    (Nat.zero_le _) (by simp only [MAX_SLOT]; omega)


/-! ## Decoding a configuration address -/

theorem address_bus_config_address (bus slot func offset : Nat)
    (hslot : slot < 32) (hfunc : func < 8) (hbus : bus < 256) :
    address_bus (config_address bus slot func offset) = bus := by
  have hff : (0xFF : Nat) = 2 ^ 8 - 1 := by decide
  unfold address_bus
  rw [hff, Nat.and_pow_two_sub_one_eq_mod]
  apply Nat.eq_of_testBit_eq
  intro i
  rw [Nat.testBit_mod_two_pow, Nat.testBit_shiftRight, config_address_testBit]
  by_cases hi : i < 8
  · have hs : slot.testBit (16 + i - 11) = false :=
      testBit_eq_false_of_lt (k := 5) hslot (by omega)
    have hf : func.testBit (16 + i - 8) = false :=
      testBit_eq_false_of_lt (k := 3) hfunc (by omega)
    have h31 : ¬ 16 + i = 31 := by omega
    have h8 : ¬ 16 + i < 8 := by omega
    simp [hi, hs, hf, h31, h8]
  · have hb : bus.testBit i = false := testBit_eq_false_of_lt (k := 8) hbus (by omega)
    simp [hi, hb]

theorem address_slot_config_address (bus slot func offset : Nat)
    (hslot : slot < 32) (hfunc : func < 8) :
    address_slot (config_address bus slot func offset) = slot := by
  have hff : (0x1F : Nat) = 2 ^ 5 - 1 := by decide
  unfold address_slot
  rw [hff, Nat.and_pow_two_sub_one_eq_mod]
  apply Nat.eq_of_testBit_eq
  intro i
  rw [Nat.testBit_mod_two_pow, Nat.testBit_shiftRight, config_address_testBit]
  by_cases hi : i < 5
  · have hf : func.testBit (11 + i - 8) = false :=
      testBit_eq_false_of_lt (k := 3) hfunc (by omega)
    have h31 : ¬ 11 + i = 31 := by omega
    have h16 : ¬ 16 ≤ 11 + i := by omega
    have h8 : ¬ 11 + i < 8 := by omega
    simp [hi, hf, h31, h8, h16]
  · have hb : slot.testBit i = false := testBit_eq_false_of_lt (k := 5) hslot (by omega)
    simp [hi, hb]

theorem address_func_config_address (bus slot func offset : Nat) (hfunc : func < 8) :
    address_func (config_address bus slot func offset) = func := by
  have hff : (0x7 : Nat) = 2 ^ 3 - 1 := by decide
  unfold address_func
  rw [hff, Nat.and_pow_two_sub_one_eq_mod]
  apply Nat.eq_of_testBit_eq
  intro i
  rw [Nat.testBit_mod_two_pow, Nat.testBit_shiftRight, config_address_testBit]
  by_cases hi : i < 3
  · have h31 : ¬ 8 + i = 31 := by omega
    have h16 : ¬ 16 ≤ 8 + i := by omega
    have h11 : ¬ 11 ≤ 8 + i := by omega
    have h8 : ¬ 8 + i < 8 := by omega
    simp [hi, h31, h8, h16, h11]
  · have hb : func.testBit i = false := testBit_eq_false_of_lt (k := 3) hfunc (by omega)
    simp [hi, hb]

theorem address_register_config_address (bus slot func offset : Nat) :
    address_register (config_address bus slot func offset) = offset &&& 0xFC := by
  unfold address_register
  apply Nat.eq_of_testBit_eq
  intro i
  have hfc : (0xFC : Nat).testBit i = (decide (2 ≤ i) && decide (i < 8)) := by
    by_cases h : i < 8
    · interval_cases i <;> decide
    · simp [testBit_eq_false_of_lt (by decide : (0xFC : Nat) < 2 ^ 8) (by omega : 8 ≤ i), h]
  rw [Nat.testBit_and, Nat.testBit_and, config_address_testBit, hfc]
  by_cases h2 : 2 ≤ i <;> by_cases h8 : i < 8
  · have h31 : ¬ i = 31 := by omega
    have h16 : ¬ 16 ≤ i := by omega
    have h11 : ¬ 11 ≤ i := by omega
    have h88 : ¬ 8 ≤ i := by omega
    simp [h2, h8, h31, h16, h11, h88]
  · simp [h2, h8]
  · simp [h2, h8]
  · simp [h2, h8]

theorem config_address_testBit_31 (bus slot func offset : Nat) :
    (config_address bus slot func offset).testBit 31 = true := by
  rw [config_address_testBit]
  simp

/-! ## Reads from the simulated configuration space -/

/-- A word read from the simulated space at valid coordinates returns the
selected half of the addressed dword and changes nothing but the latch. -/
theorem sim_pciConfigReadWord (m : Machine SimState) (bus slot func offset : Nat)
    (hbus : bus < 256) (hslot : slot < 32) (hfunc : func < 8) (hoff : offset < 256) :
    pciConfigReadWord sim_hw bus slot func offset m =
      (sim_word m.hw.space bus slot func offset,
       { hw := { latch := config_address bus slot func offset, space := m.hw.space }
         trace := m.trace ++ sim_read_events m.hw.space bus slot func offset
         screen := m.screen }) := by
  rw [pciConfigReadWord_eq sim_hw m bus slot func offset hbus (by omega) (by omega) hoff]
  simp [sim_hw, sim_word, sim_read_events, config_address_testBit_31,
    address_bus_config_address bus slot func offset hslot hfunc hbus,
    address_slot_config_address bus slot func offset hslot hfunc,
    address_func_config_address bus slot func offset hfunc,
    address_register_config_address]


/-! ## The device header reader -/

/-- The header reader, unfolded over arbitrary hardware: twelve word reads. -/
theorem get_pci_device_eq (P : PortHw σ) (m : Machine σ) (bus slot func : Nat)
    (hbus : bus < 256) (hslot : slot < 256) (hfunc : func < 256) :
    (get_pci_device P bus slot func m).2.trace =
      m.trace ++ (List.zip [0x0, 0x2, 0x4, 0x6, 0x8, 0xA, 0xC, 0xE, 0x10, 0x12, 0x14, 0x16]
        (raw_reads P bus slot func
          [0x0, 0x2, 0x4, 0x6, 0x8, 0xA, 0xC, 0xE, 0x10, 0x12, 0x14, 0x16] m.hw).1).flatMap
        (fun p => [PortEvent.out 0xCF8 (config_address bus slot func p.1),
          PortEvent.inp 0xCFC p.2]) ∧
    (get_pci_device P bus slot func m).1.fields =
      List.zipWith (fun w k => w % 2 ^ k)
        (List.zipWith select_word [0x0, 0x2, 0x4, 0x6, 0x8, 0xA, 0xC, 0xE, 0x10, 0x12, 0x14, 0x16]
          (raw_reads P bus slot func
            [0x0, 0x2, 0x4, 0x6, 0x8, 0xA, 0xC, 0xE, 0x10, 0x12, 0x14, 0x16] m.hw).1)
        [16, 16, 16, 16, 8, 8, 8, 8, 8, 8, 8, 8] ∧
    (get_pci_device P bus slot func m).2.screen = m.screen ∧
    (get_pci_device P bus slot func m).2.hw =
      (raw_reads P bus slot func
        [0x0, 0x2, 0x4, 0x6, 0x8, 0xA, 0xC, 0xE, 0x10, 0x12, 0x14, 0x16] m.hw).2 := by
  unfold get_pci_device
  simp only [u8_of_lt (x := bus) hbus, u8_of_lt (x := slot) hslot, u8_of_lt (x := func) hfunc]
  rw [pciConfigReadWord_eq P _ bus slot func 0x0 hbus hslot hfunc (by decide)]
  simp only
  rw [pciConfigReadWord_eq P _ bus slot func 0x2 hbus hslot hfunc (by decide)]
  simp only
  rw [pciConfigReadWord_eq P _ bus slot func 0x4 hbus hslot hfunc (by decide)]
  simp only
  rw [pciConfigReadWord_eq P _ bus slot func 0x6 hbus hslot hfunc (by decide)]
  simp only
  rw [pciConfigReadWord_eq P _ bus slot func 0x8 hbus hslot hfunc (by decide)]
  simp only
  rw [pciConfigReadWord_eq P _ bus slot func 0xA hbus hslot hfunc (by decide)]
  simp only
  rw [pciConfigReadWord_eq P _ bus slot func 0xC hbus hslot hfunc (by decide)]
  simp only
  rw [pciConfigReadWord_eq P _ bus slot func 0xE hbus hslot hfunc (by decide)]
  simp only
  rw [pciConfigReadWord_eq P _ bus slot func 0x10 hbus hslot hfunc (by decide)]
  simp only
  rw [pciConfigReadWord_eq P _ bus slot func 0x12 hbus hslot hfunc (by decide)]
  simp only
  rw [pciConfigReadWord_eq P _ bus slot func 0x14 hbus hslot hfunc (by decide)]
  simp only
  rw [pciConfigReadWord_eq P _ bus slot func 0x16 hbus hslot hfunc (by decide)]
  refine ⟨?_, ?_, rfl, rfl⟩
  · simp only [raw_reads, List.zip_cons_cons, List.zip_nil_right, List.flatMap_cons,
      List.flatMap_nil, List.append_assoc, List.cons_append, List.nil_append, List.append_nil]
  · simp only [pci_device.fields, raw_reads, List.zipWith_cons_cons, List.zipWith_nil_right, u16, u8]


/-- The header reader over the simulated space at valid coordinates. -/
theorem sim_get_pci_device (m : Machine SimState) (bus slot func : Nat)
    (hbus : bus < 256) (hslot : slot < 32) (hfunc : func < 8) :
    get_pci_device sim_hw bus slot func m =
      (sim_descriptor m.hw.space bus slot func,
       { hw := { latch := config_address bus slot func 0x16, space := m.hw.space }
         trace := m.trace ++ sim_descriptor_events m.hw.space bus slot func
         screen := m.screen }) := by
  unfold get_pci_device
  simp only [u8_of_lt (x := bus) hbus, u8_of_lt (x := slot) (by omega : slot < 2 ^ 8),
    u8_of_lt (x := func) (by omega : func < 2 ^ 8)]
  rw [sim_pciConfigReadWord _ bus slot func 0x0 hbus hslot hfunc (by decide)]
  simp only
  rw [sim_pciConfigReadWord _ bus slot func 0x2 hbus hslot hfunc (by decide)]
  simp only
  rw [sim_pciConfigReadWord _ bus slot func 0x4 hbus hslot hfunc (by decide)]
  simp only
  rw [sim_pciConfigReadWord _ bus slot func 0x6 hbus hslot hfunc (by decide)]
  simp only
  rw [sim_pciConfigReadWord _ bus slot func 0x8 hbus hslot hfunc (by decide)]
  simp only
  rw [sim_pciConfigReadWord _ bus slot func 0xA hbus hslot hfunc (by decide)]
  simp only
  rw [sim_pciConfigReadWord _ bus slot func 0xC hbus hslot hfunc (by decide)]
  simp only
  rw [sim_pciConfigReadWord _ bus slot func 0xE hbus hslot hfunc (by decide)]
  simp only
  rw [sim_pciConfigReadWord _ bus slot func 0x10 hbus hslot hfunc (by decide)]
  simp only
  rw [sim_pciConfigReadWord _ bus slot func 0x12 hbus hslot hfunc (by decide)]
  simp only
  rw [sim_pciConfigReadWord _ bus slot func 0x14 hbus hslot hfunc (by decide)]
  simp only
  rw [sim_pciConfigReadWord _ bus slot func 0x16 hbus hslot hfunc (by decide)]
  simp only [sim_descriptor, sim_descriptor_events, List.flatMap_cons, List.flatMap_nil,
    List.append_assoc, List.append_nil]

/-- One iteration of the scan over the simulated space: the space is unchanged,
the trace grows by the probe accesses and the screen by the report. -/
theorem sim_get_all_pci_devices_body (m : Machine SimState) (bus slot func : Nat)
    (hbus : bus < 256) (hslot : slot < 32) (hfunc : func < 8) :
    (get_all_pci_devices_body sim_hw bus slot func m).hw.space = m.hw.space ∧
    (get_all_pci_devices_body sim_hw bus slot func m).trace =
      m.trace ++ sim_probe_events m.hw.space bus slot func ∧
    (get_all_pci_devices_body sim_hw bus slot func m).screen =
      m.screen ++ sim_report m.hw.space bus slot func := by
  unfold get_all_pci_devices_body
  rw [sim_pciConfigReadWord m bus slot func 0 hbus hslot hfunc (by decide)]
  simp only
  by_cases hp : u16 (sim_word m.hw.space bus slot func 0) ≠ 0xFFFF
  · rw [if_pos hp, sim_get_pci_device _ bus slot func hbus hslot hfunc]
    have hp2 : sim_present m.hw.space bus slot func = true := by
      simp only [sim_present, decide_eq_true_eq]; exact hp
    have h16 : ∀ x, u32 (u16 x) = u16 x := fun x =>
      u32_of_lt (Nat.lt_of_lt_of_le (u16_lt x) (by decide))
    have h8 : ∀ x, u32 (u8 x) = u8 x := fun x =>
      u32_of_lt (Nat.lt_of_lt_of_le (u8_lt x) (by decide))
    simp only [kprint, kprint_hex, sim_probe_events, sim_report, hp2, if_true,
      List.append_assoc, List.cons_append, List.nil_append, sim_descriptor, h16, h8]
    exact ⟨trivial, trivial, trivial⟩
  · rw [if_neg hp]
    have hp2 : sim_present m.hw.space bus slot func = false := by
      simp only [sim_present, decide_eq_false_iff_not]; exact hp
    simp [sim_probe_events, sim_report, hp2]

/-- Folding steps that leave the simulated space alone and append to trace and
screen: the appended parts are the concatenation of the per-step parts. -/
theorem sim_foldl_appends {ι : Type} (l : List ι)
    (step : Machine SimState → ι → Machine SimState)
    (ev : (Nat → Nat → Nat → Nat → Nat) → ι → List PortEvent)
    (sc : (Nat → Nat → Nat → Nat → Nat) → ι → List ScreenEvent)
    (valid : ι → Prop) (hl : ∀ j ∈ l, valid j)
    (hstep : ∀ j m, valid j → (step m j).hw.space = m.hw.space ∧
      (step m j).trace = m.trace ++ ev m.hw.space j ∧
      (step m j).screen = m.screen ++ sc m.hw.space j) :
    ∀ m, (l.foldl step m).hw.space = m.hw.space ∧
      (l.foldl step m).trace = m.trace ++ l.flatMap (ev m.hw.space) ∧
      (l.foldl step m).screen = m.screen ++ l.flatMap (sc m.hw.space) := by
  induction l with
  | nil => intro m; simp
  | cons j l ih =>
    intro m
    obtain ⟨h1, h2, h3⟩ := hstep j m (hl j (List.mem_cons_self j l))
    obtain ⟨i1, i2, i3⟩ := ih (fun k hk => hl k (List.mem_cons_of_mem j hk)) (step m j)
    rw [List.foldl_cons, i1, i2, i3, h1, h2, h3]
    simp [List.flatMap_cons, List.append_assoc]

/-- The scan over the simulated space: the space is unchanged, the trace grows by
the probe accesses and the screen by the reports of all triples in scan order. -/
theorem sim_scan_fold (m : Machine SimState) :
    (scan_fold sim_hw m).hw.space = m.hw.space ∧
    (scan_fold sim_hw m).trace = m.trace ++
      (List.range' 0 32).flatMap (fun bus => (List.range' 0 32).flatMap (fun slot =>
        (List.range' 0 8).flatMap (fun func => sim_probe_events m.hw.space bus slot func))) ∧
    (scan_fold sim_hw m).screen = m.screen ++
      (List.range' 0 32).flatMap (fun bus => (List.range' 0 32).flatMap (fun slot =>
        (List.range' 0 8).flatMap (fun func => sim_report m.hw.space bus slot func))) := by
  unfold scan_fold
  apply sim_foldl_appends (List.range' 0 32) _
    (fun space bus => (List.range' 0 32).flatMap (fun slot =>
        (List.range' 0 8).flatMap (fun func => sim_probe_events space bus slot func)))
    (fun space bus => (List.range' 0 32).flatMap (fun slot =>
        (List.range' 0 8).flatMap (fun func => sim_report space bus slot func)))
    (fun bus => bus < 32) (fun j hj => by rw [List.mem_range'_1] at hj; omega)
  intro bus m hbus
  apply sim_foldl_appends (List.range' 0 32) _
    (fun space slot => (List.range' 0 8).flatMap (fun func => sim_probe_events space bus slot func))
    (fun space slot => (List.range' 0 8).flatMap (fun func => sim_report space bus slot func))
    (fun slot => slot < 32) (fun j hj => by rw [List.mem_range'_1] at hj; omega)
  intro slot m hslot
  apply sim_foldl_appends (List.range' 0 8) _
    (fun space func => sim_probe_events space bus slot func)
    (fun space func => sim_report space bus slot func)
    (fun func => func < 8) (fun j hj => by rw [List.mem_range'_1] at hj; omega)
  intro func m hfunc
  exact sim_get_all_pci_devices_body m bus slot func (by omega) hslot hfunc


/-! ## List helpers -/

theorem flatMap_eq_nil_of_forall {α β : Type} (l : List α) (f : α → List β)
    (h : ∀ x ∈ l, f x = []) : l.flatMap f = [] := by
  induction l with
  | nil => rfl
  | cons a l ih =>
    rw [List.flatMap_cons, h a (List.mem_cons_self a l),
      ih (fun x hx => h x (List.mem_cons_of_mem a hx))]
    rfl

theorem flatMap_congr_of_forall {α β : Type} (l : List α) (f g : α → List β)
    (h : ∀ x ∈ l, f x = g x) : l.flatMap f = l.flatMap g := by
  induction l with
  | nil => rfl
  | cons a l ih =>
    rw [List.flatMap_cons, List.flatMap_cons, h a (List.mem_cons_self a l),
      ih (fun x hx => h x (List.mem_cons_of_mem a hx))]

theorem flatMap_range'_single {β : Type} (f : Nat → List β) (x0 : Nat)
    (h : ∀ x, x ≠ x0 → f x = []) :
    ∀ (n s : Nat), s ≤ x0 → x0 < s + n → (List.range' s n).flatMap f = f x0 := by
  intro n
  induction n with
  | zero => intro s h1 h2; omega
  | succ n ih =>
    intro s h1 h2
    rw [List.range'_succ, List.flatMap_cons]
    by_cases hs : s = x0
    · subst hs
      rw [flatMap_eq_nil_of_forall (List.range' (s + 1) n) f, List.append_nil]
      intro x hx
      rw [List.mem_range'_1] at hx
      exact h x (by omega)
    · rw [h s hs, List.nil_append]
      exact ih (s + 1) (by omega) (by omega)

/-! ## The scan on the example spaces -/

theorem sim_report_single_device_space (bus slot func : Nat)
    (h : ¬ (bus = 0 ∧ slot = 5 ∧ func = 0)) :
    sim_report single_device_space bus slot func = [] := by
  have hw : sim_present single_device_space bus slot func = false := by
    simp only [sim_present, sim_word, single_device_space, if_neg h]
    decide
  simp only [sim_report, hw]
  rfl

theorem length_flatMap_of_forall {α β : Type} (l : List α) (f : α → List β) (c : Nat)
    (h : ∀ x ∈ l, (f x).length = c) : (l.flatMap f).length = l.length * c := by
  induction l with
  | nil => simp
  | cons a l ih =>
    rw [List.flatMap_cons, List.length_append, h a (List.mem_cons_self a l),
      ih (fun x hx => h x (List.mem_cons_of_mem a hx)), List.length_cons, Nat.succ_mul,
      Nat.add_comm]

theorem sim_probe_events_bus32_device_space (bus slot func : Nat) (h : bus < 32) :
    sim_probe_events bus32_device_space bus slot func =
      [PortEvent.out 0xCF8 (config_address bus slot func 0), PortEvent.inp 0xCFC 0xFFFFFFFF] := by
  have hne : ¬ (bus = 32 ∧ slot = 0 ∧ func = 0) := by omega
  have hw : sim_present bus32_device_space bus slot func = false := by
    simp only [sim_present, sim_word, bus32_device_space, if_neg hne]
    decide
  have hu : u32 0xFFFFFFFF = 0xFFFFFFFF := by decide
  simp [sim_probe_events, hw, sim_read_events, bus32_device_space, if_neg hne, hu]

theorem sim_report_bus32_device_space (bus slot func : Nat) (h : bus < 32) :
    sim_report bus32_device_space bus slot func = [] := by
  have hne : ¬ (bus = 32 ∧ slot = 0 ∧ func = 0) := by omega
  have hw : sim_present bus32_device_space bus slot func = false := by
    simp only [sim_present, sim_word, bus32_device_space, if_neg hne]
    decide
  simp only [sim_report, hw]
  rfl

/-- Claim C3: on the simulated space whose only device sits at bus 0, slot 5, function 0
with vendor ID 0x8086, device ID 0x100E, class 0x02 and revision 0x03, the scan
finishes and prints exactly one record, and that record shows 0x8086 as the
device, 0x100E as the vendor and 0x03 as the class. -/
theorem scan_single_device_report :
    (get_all_pci_devices sim_hw 33 (boot ⟨0, single_device_space⟩)).map (fun m => m.screen) =
      some [ScreenEvent.kprint "Device: ", ScreenEvent.kprint_hex 0x8086,
        ScreenEvent.kprint "Vendor: ", ScreenEvent.kprint_hex 0x100E,
        ScreenEvent.kprint "Class: ", ScreenEvent.kprint_hex 0x03] := by
  have h := (sim_scan_fold (boot ⟨0, single_device_space⟩)).2.2
  rw [get_all_pci_devices_eq sim_hw 33 _ (Nat.le_refl 33), Option.map_some', h]
  have hnil : (boot (⟨0, single_device_space⟩ : SimState)).screen = [] := rfl
  have hsp : (boot (⟨0, single_device_space⟩ : SimState)).hw.space = single_device_space := rfl
  rw [hnil, hsp, List.nil_append]
  rw [flatMap_range'_single _ 0 _ 32 0 (Nat.le_refl 0) (by decide),
    flatMap_range'_single _ 5 _ 32 0 (by decide) (by decide),
    flatMap_range'_single _ 0 _ 8 0 (Nat.le_refl 0) (by decide)]
  · have hp : sim_present single_device_space 0 5 0 = true := by decide
    have hd : (sim_descriptor single_device_space 0 5 0).deviceID = 0x8086 := by decide
    have hv : (sim_descriptor single_device_space 0 5 0).vendorID = 0x100E := by decide
    have hc : (sim_descriptor single_device_space 0 5 0).class_ = 0x03 := by decide
    simp only [sim_report, hp, hd, hv, hc, if_true]
  · intro func hfunc
    exact sim_report_single_device_space 0 5 func (by omega)
  · intro slot hslot
    exact flatMap_eq_nil_of_forall _ _
      (fun func _ => sim_report_single_device_space 0 slot func (by omega))
  · intro bus hbus
    exact flatMap_eq_nil_of_forall _ _ (fun slot _ => flatMap_eq_nil_of_forall _ _
      (fun func _ => sim_report_single_device_space bus slot func (by omega)))

/-- Claim C4: on the simulated space whose only device sits at bus 32, slot 0, function 0,
the scan finishes after 32 * 32 * 8 probes (two port accesses each), never writes
the address of bus 32, slot 0, function 0 to the address port, and reports nothing. -/
theorem scan_misses_device_on_bus_32 :
    ∃ m, get_all_pci_devices sim_hw 33 (boot ⟨0, bus32_device_space⟩) = some m ∧
      m.trace.length = 2 * (32 * 32 * 8) ∧
      PortEvent.out 0xCF8 (config_address 32 0 0 0) ∉ m.trace ∧
      m.screen = [] := by
  refine ⟨_, get_all_pci_devices_eq sim_hw 33 _ (Nat.le_refl 33), ?_, ?_, ?_⟩
  · rw [(sim_scan_fold _).2.1]
    simp only [boot, List.nil_append]
    rw [length_flatMap_of_forall _ _ (32 * (8 * 2))]
    · simp
    · intro bus hbus
      rw [List.mem_range'_1] at hbus
      rw [length_flatMap_of_forall _ _ (8 * 2)]
      · simp
      · intro slot _
        rw [length_flatMap_of_forall _ _ 2]
        · simp
        · intro func _
          rw [sim_probe_events_bus32_device_space bus slot func (by omega)]
          rfl
  · rw [(sim_scan_fold _).2.1]
    simp only [boot, List.nil_append, List.mem_flatMap, not_exists, not_and]
    intro bus hbus slot hslot func hfunc hmem
    rw [List.mem_range'_1] at hbus hslot hfunc
    rw [sim_probe_events_bus32_device_space bus slot func (by omega)] at hmem
    simp only [List.mem_cons, PortEvent.out.injEq, true_and, List.mem_singleton,
      reduceCtorEq, or_false, List.not_mem_nil] at hmem
    have hb := congrArg address_bus hmem
    rw [address_bus_config_address bus slot func 0 (by omega) (by omega) (by omega)] at hb
    have h32 : address_bus (config_address 32 0 0 0) = 32 := by decide
    omega
  · rw [(sim_scan_fold _).2.2]
    simp only [boot, List.nil_append]
    exact flatMap_eq_nil_of_forall _ _ (fun bus hbus =>
      flatMap_eq_nil_of_forall _ _ (fun slot _ => flatMap_eq_nil_of_forall _ _
        (fun func _ => sim_report_bus32_device_space bus slot func
          (by rw [List.mem_range'_1] at hbus; omega))))


/-! ## The header reader and the command register on concrete and arbitrary hardware -/

/-- Claim C5: on the simulated space whose device at bus 0, slot 5, function 0 has vendor
ID 0x8086, device ID 0x100E, status 0x0210, command 0x0007, class 0x02, subclass
0x00, programming interface 0x00, revision 0x03, BIST 0x40, header type 0x80,
latency timer 0x20 and cache line size 0x10, `get_pci_device` returns deviceID
0x8086, vendorID 0x100E, status 0x0007, command 0x0210, class 0x03, progIF 0x10,
revisionID 0x80, bist 0x00, headerType 0xBC, latencyTimer 0x01 and cacheLineSize
0x00, while `pciCheckVendor` returns 0x100E. -/
theorem get_pci_device_single_device :
    (get_pci_device sim_hw 0 5 0 (boot ⟨0, single_device_space⟩)).1 =
      { deviceID := 0x8086, vendorID := 0x100E, status := 0x0007, command := 0x0210,
        class_ := 0x03, subclass := 0x00, progIF := 0x10, revisionID := 0x80,
        bist := 0x00, headerType := 0xBC, latencyTimer := 0x01, cacheLineSize := 0x00 } ∧
    (pciCheckVendor sim_hw 0 5 (boot ⟨0, single_device_space⟩)).1 = 0x100E := by
  decide

theorem raw_reads_length (P : PortHw σ) (bus slot func : Nat) :
    ∀ (offsets : List Nat) (hw : σ),
      (raw_reads P bus slot func offsets hw).1.length = offsets.length := by
  intro offsets
  induction offsets with
  | nil => intro hw; rfl
  | cons o rest ih =>
    intro hw
    simp only [raw_reads, List.length_cons, ih]

/-- Claim C6: over any hardware, `get_pci_device` makes exactly twelve word reads, all at
the given bus, slot and function, at offsets 0x0, 0x2, ..., 0x16 in that order
(each an address-port write followed by a data-port read returning some `v`),
and field `k` of the descriptor, in declared order, is the word selected from
the `k`-th value read, reduced to the width of the field. -/
theorem get_pci_device_twelve_reads (P : PortHw σ) (m : Machine σ) (bus slot func : Nat)
    (hbus : bus < 256) (hslot : slot < 256) (hfunc : func < 256) :
    ∃ vs : List Nat, vs.length = 12 ∧
      (get_pci_device P bus slot func m).2.trace =
        m.trace ++ (List.zip [0x0, 0x2, 0x4, 0x6, 0x8, 0xA, 0xC, 0xE, 0x10, 0x12, 0x14, 0x16]
          vs).flatMap (fun p => [PortEvent.out 0xCF8 (config_address bus slot func p.1),
            PortEvent.inp 0xCFC p.2]) ∧
      (get_pci_device P bus slot func m).1.fields =
        List.zipWith (fun w k => w % 2 ^ k)
          (List.zipWith select_word
            [0x0, 0x2, 0x4, 0x6, 0x8, 0xA, 0xC, 0xE, 0x10, 0x12, 0x14, 0x16] vs)
          [16, 16, 16, 16, 8, 8, 8, 8, 8, 8, 8, 8] :=
  ⟨(raw_reads P bus slot func
      [0x0, 0x2, 0x4, 0x6, 0x8, 0xA, 0xC, 0xE, 0x10, 0x12, 0x14, 0x16] m.hw).1,
    raw_reads_length P bus slot func
      [0x0, 0x2, 0x4, 0x6, 0x8, 0xA, 0xC, 0xE, 0x10, 0x12, 0x14, 0x16] m.hw,
    (get_pci_device_eq P m bus slot func hbus hslot hfunc).1,
    (get_pci_device_eq P m bus slot func hbus hslot hfunc).2.1⟩

/-- Witness for C6: with nothing behind the ports the twelve reads are still made
and every field is all ones. -/
theorem get_pci_device_twelve_reads_witness :
    (∃ vs : List Nat, vs.length = 12 ∧
      (get_pci_device absent_hw 0 5 0 (boot ())).2.trace =
        (boot ()).trace ++
          (List.zip [0x0, 0x2, 0x4, 0x6, 0x8, 0xA, 0xC, 0xE, 0x10, 0x12, 0x14, 0x16]
          vs).flatMap (fun p => [PortEvent.out 0xCF8 (config_address 0 5 0 p.1),
            PortEvent.inp 0xCFC p.2]) ∧
      (get_pci_device absent_hw 0 5 0 (boot ())).1.fields =
        List.zipWith (fun w k => w % 2 ^ k)
          (List.zipWith select_word
            [0x0, 0x2, 0x4, 0x6, 0x8, 0xA, 0xC, 0xE, 0x10, 0x12, 0x14, 0x16] vs)
          [16, 16, 16, 16, 8, 8, 8, 8, 8, 8, 8, 8]) ∧
    (get_pci_device absent_hw 0 5 0 (boot ())).1.fields =
      [0xFFFF, 0xFFFF, 0xFFFF, 0xFFFF, 0xFF, 0xFF, 0xFF, 0xFF, 0xFF, 0xFF, 0xFF, 0xFF] ∧
    (get_pci_device absent_hw 0 5 0 (boot ())).2.trace.length = 24 :=
  ⟨get_pci_device_twelve_reads absent_hw (boot ()) 0 5 0 (by decide) (by decide) (by decide),
    by decide, by decide⟩

/-- The command register update, unfolded over arbitrary hardware: one word read
at offset 0x4 and one word write at offset 0x4 of the merged word. -/
theorem set_pci_command_register_eq (P : PortHw σ) (m : Machine σ)
    (bus slot func command : Nat)
    (hbus : bus < 256) (hslot : slot < 256) (hfunc : func < 256) (hcommand : command < 2 ^ 16) :
    (set_pci_command_register P bus slot func command m).trace =
      m.trace ++ [PortEvent.out 0xCF8 (config_address bus slot func 0x4),
        PortEvent.inp 0xCFC (u32 (P.inp 0xCFC (P.out 0xCF8 (config_address bus slot func 0x4) m.hw)).1),
        PortEvent.out 0xCF8 (config_address bus slot func 0x4),
        PortEvent.out 0xCFC
          (((u32 (P.inp 0xCFC (P.out 0xCF8 (config_address bus slot func 0x4) m.hw)).1
            &&& 0xFFFF) &&& 0xFF00) ||| command)] := by
  have hsel : ∀ v, select_word 0x4 v = v &&& 0xFFFF :=
    fun v => select_word_low 0x4 v (by decide)
  have hlt : ∀ v : Nat, v &&& 0xFFFF < 2 ^ 16 := fun v => by
    rw [and_ffff_eq_mod]; exact Nat.mod_lt _ (by decide)
  have hmerge : ∀ e : Nat, u16 ((e &&& 0xFF00) ||| command) = (e &&& 0xFF00) ||| command :=
    fun e => u16_of_lt (Nat.or_lt_two_pow
      (Nat.lt_of_le_of_lt Nat.and_le_right (by decide)) hcommand)
  unfold set_pci_command_register get_pci_command_register
  simp only [u8_of_lt (x := bus) hbus, u8_of_lt (x := slot) hslot, u8_of_lt (x := func) hfunc,
    u16_of_lt hcommand]
  rw [pciConfigReadWord_eq P m bus slot func 0x4 hbus hslot hfunc (by decide),
    pciConfigWriteWord_eq P _ bus slot func 0x4 _ hbus hslot hfunc (by decide)]
  simp only [hsel, u16_of_lt (hlt _), hmerge, List.append_assoc, List.cons_append,
    List.nil_append]

/-- Claim C7: merge law. When the command register holds `e` (the low word of the dword
`v` the data port returns for offset 0x4) and the new low byte is `b <= 0xFF`,
the word `set_pci_command_register` writes at offset 0x4 is `(e & 0xFF00) | b`. -/
theorem set_pci_command_register_merge (P : PortHw σ) (m : Machine σ)
    (bus slot func b v e : Nat)
    (hbus : bus < 256) (hslot : slot < 256) (hfunc : func < 256) (hb : b ≤ 0xFF)
    (hv32 : v < 2 ^ 32)
    (hv : (P.inp 0xCFC (P.out 0xCF8 (config_address bus slot func 0x4) m.hw)).1 = v)
    (he : e = v &&& 0xFFFF) :
    (set_pci_command_register P bus slot func b m).trace =
      m.trace ++ [PortEvent.out 0xCF8 (config_address bus slot func 0x4),
        PortEvent.inp 0xCFC v,
        PortEvent.out 0xCF8 (config_address bus slot func 0x4),
        PortEvent.out 0xCFC ((e &&& 0xFF00) ||| b)] := by
  rw [set_pci_command_register_eq P m bus slot func b hbus hslot hfunc (by omega), hv,
    u32_of_lt hv32, he]

/-- Witness for C7: existing value 0xAB10 and new low byte 0x01 give 0xAB01. -/
theorem set_pci_command_register_merge_witness :
    (set_pci_command_register sim_hw 0 5 0 0x01 (boot ⟨0, command_ab10_space⟩)).trace =
      [PortEvent.out 0xCF8 0x80002804, PortEvent.inp 0xCFC 0x0290AB10,
       PortEvent.out 0xCF8 0x80002804, PortEvent.out 0xCFC 0xAB01] :=
  (set_pci_command_register_merge sim_hw (boot ⟨0, command_ab10_space⟩) 0 5 0 0x01
    0x0290AB10 0xAB10 (by decide) (by decide) (by decide) (by decide) (by decide)
    (by decide) (by decide)).trans (by decide)

/-- Claim C8 as stated fails: with the command register holding 0 and the command
argument 0x0100, the word written is 0x0100, whose bit 8 is set although bit 8 of
the existing value is clear. -/
theorem set_pci_command_register_sets_bit_8 :
    (set_pci_command_register sim_hw 0 5 0 0x0100 (boot ⟨0, zero_space⟩)).trace =
      [PortEvent.out 0xCF8 0x80002804, PortEvent.inp 0xCFC 0,
       PortEvent.out 0xCF8 0x80002804, PortEvent.out 0xCFC 0x0100] ∧
    Nat.testBit 0x0100 8 = true ∧ Nat.testBit (0 &&& 0xFFFF) 8 = false := by
  decide

/-- Claim C8, amended: for every existing command-register value `e` and every 16-bit
command argument, the word written is `(e & 0xFF00) | command`; each of its bits
8..15 is the OR of that bit of `e` and that bit of the argument, so a bit set in
`e` stays set, and the bits 8..15 are those of `e` when the argument is at most
0xFF. -/
theorem set_pci_command_register_high_bits (P : PortHw σ) (m : Machine σ)
    (bus slot func command v e : Nat)
    (hbus : bus < 256) (hslot : slot < 256) (hfunc : func < 256) (hcommand : command < 2 ^ 16)
    (hv32 : v < 2 ^ 32)
    (hv : (P.inp 0xCFC (P.out 0xCF8 (config_address bus slot func 0x4) m.hw)).1 = v)
    (he : e = v &&& 0xFFFF) :
    ∃ w, (set_pci_command_register P bus slot func command m).trace =
        m.trace ++ [PortEvent.out 0xCF8 (config_address bus slot func 0x4),
          PortEvent.inp 0xCFC v,
          PortEvent.out 0xCF8 (config_address bus slot func 0x4),
          PortEvent.out 0xCFC w] ∧
      w = (e &&& 0xFF00) ||| command ∧
      (∀ i, 8 ≤ i → i ≤ 15 → w.testBit i = (e.testBit i || command.testBit i)) ∧
      (∀ i, 8 ≤ i → i ≤ 15 → e.testBit i = true → w.testBit i = true) ∧
      (command ≤ 0xFF → ∀ i, 8 ≤ i → i ≤ 15 → w.testBit i = e.testBit i) := by
  have hbits : ∀ i, 8 ≤ i → i ≤ 15 →
      ((e &&& 0xFF00) ||| command).testBit i = (e.testBit i || command.testBit i) := by
    intro i h8 h15
    have hm : (0xFF00 : Nat).testBit i = true := by
      interval_cases i <;> decide
    rw [Nat.testBit_or, Nat.testBit_and, hm, Bool.and_true]
  refine ⟨(e &&& 0xFF00) ||| command, ?_, rfl, hbits, ?_, ?_⟩
  · rw [set_pci_command_register_eq P m bus slot func command hbus hslot hfunc hcommand, hv,
      u32_of_lt hv32, he]
  · intro i h8 h15 hset
    rw [hbits i h8 h15, hset, Bool.true_or]
  · intro hle i h8 h15
    have hc : command.testBit i = false :=
      testBit_eq_false_of_lt (k := 8) (by omega) h8
    rw [hbits i h8 h15, hc, Bool.or_false]

/-- Witness for C8, amended: existing value 0xAB10 and command 0x0400 give 0xAF00. -/
theorem set_pci_command_register_high_bits_witness :
    ∃ w, (set_pci_command_register sim_hw 0 5 0 0x0400 (boot ⟨0, command_ab10_space⟩)).trace =
        (boot (⟨0, command_ab10_space⟩ : SimState)).trace ++
          [PortEvent.out 0xCF8 (config_address 0 5 0 0x4), PortEvent.inp 0xCFC 0x0290AB10,
           PortEvent.out 0xCF8 (config_address 0 5 0 0x4), PortEvent.out 0xCFC w] ∧
      w = (0xAB10 &&& 0xFF00) ||| 0x0400 :=
  let ⟨w, h1, h2, _⟩ := set_pci_command_register_high_bits sim_hw
    (boot ⟨0, command_ab10_space⟩) 0 5 0 0x0400 0x0290AB10 0xAB10 (by decide) (by decide)
    (by decide) (by decide) (by decide) (by decide) (by decide)
  ⟨w, h1, h2⟩


/-! ## The command register encoder -/

theorem or_flag_step (x k : Nat) (b : Bool) (hx : x < 2 ^ k) (hk : k < 16) :
    u16 (x ||| (b.toNat <<< k)) = x ||| (b.toNat <<< k) ∧ x ||| (b.toNat <<< k) < 2 ^ (k + 1) := by
  have hb : b.toNat < 2 ^ 1 := by cases b <;> decide
  have h1 : b.toNat <<< k < 2 ^ (k + 1) := by
    have := shiftLeft_lt_of_lt 1 k hb
    rwa [Nat.add_comm] at this
  have h2 : x < 2 ^ (k + 1) :=
    Nat.lt_of_lt_of_le hx (Nat.pow_le_pow_right (by decide) (Nat.le_succ k))
  have h3 := Nat.or_lt_two_pow h2 h1
  exact ⟨u16_of_lt (Nat.lt_of_lt_of_le h3 (Nat.pow_le_pow_right (by decide) (by omega))), h3⟩

/-- The encoder is the OR of the flags, each shifted to its declared position;
no conversion to `uint16_t` changes a value, and the result is below `2^11`. -/
theorem command_register_to_int_eq_or (c : command_register) :
    command_register_to_int c =
      (c.ioSpaceEnable.toNat <<< 0) ||| (c.memSpaceEnable.toNat <<< 1)
        ||| (c.busMasterEnable.toNat <<< 2) ||| (c.specialCycles.toNat <<< 3)
        ||| (c.memWriteAndInvalidateEnable.toNat <<< 4) ||| (c.vgaPaletteSnoop.toNat <<< 5)
        ||| (c.parityErrorResponse.toNat <<< 6) ||| (c.idselSteppingControl.toNat <<< 7)
        ||| (c.serrEnable.toNat <<< 8) ||| (c.fastBackToBackEnable.toNat <<< 9)
        ||| (c.interruptDisable.toNat <<< 10) ∧
    command_register_to_int c < 2 ^ 11 := by
  have hz : u16 0 = 0 := rfl
  have h0 := or_flag_step 0 0 c.ioSpaceEnable (by decide) (by decide)
  have h1 := or_flag_step _ 1 c.memSpaceEnable h0.2 (by decide)
  have h2 := or_flag_step _ 2 c.busMasterEnable h1.2 (by decide)
  have h3 := or_flag_step _ 3 c.specialCycles h2.2 (by decide)
  have h4 := or_flag_step _ 4 c.memWriteAndInvalidateEnable h3.2 (by decide)
  have h5 := or_flag_step _ 5 c.vgaPaletteSnoop h4.2 (by decide)
  have h6 := or_flag_step _ 6 c.parityErrorResponse h5.2 (by decide)
  have h7 := or_flag_step _ 7 c.idselSteppingControl h6.2 (by decide)
  have h8 := or_flag_step _ 8 c.serrEnable h7.2 (by decide)
  have h9 := or_flag_step _ 9 c.fastBackToBackEnable h8.2 (by decide)
  have h10 := or_flag_step _ 10 c.interruptDisable h9.2 (by decide)
  unfold command_register_to_int
  simp only [hz]
  rw [h0.1, h1.1, h2.1, h3.1, h4.1, h5.1, h6.1, h7.1, h8.1, h9.1, h10.1]
  simp only [Nat.zero_or] at h10 ⊢
  exact ⟨trivial, h10.2⟩


/-- Claim C9: `command_register_to_int` is the OR over `i` in `0..10` of `flag_i << i`
with the flags in declared order; bits 11..15 of the result are clear whatever
the reserved field holds (the result does not depend on it); and encoding
`busMasterEnable = 1` alone yields `0x0004`. -/
theorem command_register_to_int_packs_flags (c : command_register) :
    command_register_to_int c =
      (c.ioSpaceEnable.toNat <<< 0) ||| (c.memSpaceEnable.toNat <<< 1)
        ||| (c.busMasterEnable.toNat <<< 2) ||| (c.specialCycles.toNat <<< 3)
        ||| (c.memWriteAndInvalidateEnable.toNat <<< 4) ||| (c.vgaPaletteSnoop.toNat <<< 5)
        ||| (c.parityErrorResponse.toNat <<< 6) ||| (c.idselSteppingControl.toNat <<< 7)
        ||| (c.serrEnable.toNat <<< 8) ||| (c.fastBackToBackEnable.toNat <<< 9)
        ||| (c.interruptDisable.toNat <<< 10) ∧
    (∀ i, 11 ≤ i → (command_register_to_int c).testBit i = false) ∧
    (∀ r, command_register_to_int { c with reserved := r } = command_register_to_int c) ∧
    command_register_to_int
      { ioSpaceEnable := false, memSpaceEnable := false, busMasterEnable := true,
        specialCycles := false, memWriteAndInvalidateEnable := false, vgaPaletteSnoop := false,
        parityErrorResponse := false, idselSteppingControl := false, serrEnable := false,
        fastBackToBackEnable := false, interruptDisable := false, reserved := 0 } = 0x0004 :=
  ⟨(command_register_to_int_eq_or c).1,
   fun _ hi => testBit_eq_false_of_lt (command_register_to_int_eq_or c).2 hi,
   fun _ => rfl, by decide⟩

theorem command_register_to_int_testBit (c : command_register) (i : Nat) :
    (command_register_to_int c).testBit i =
      ((decide (i = 0) && c.ioSpaceEnable) || (decide (i = 1) && c.memSpaceEnable)
        || (decide (i = 2) && c.busMasterEnable) || (decide (i = 3) && c.specialCycles)
        || (decide (i = 4) && c.memWriteAndInvalidateEnable)
        || (decide (i = 5) && c.vgaPaletteSnoop) || (decide (i = 6) && c.parityErrorResponse)
        || (decide (i = 7) && c.idselSteppingControl) || (decide (i = 8) && c.serrEnable)
        || (decide (i = 9) && c.fastBackToBackEnable)
        || (decide (i = 10) && c.interruptDisable)) := by
  have hs : ∀ (b : Bool) (k : Nat), (b.toNat <<< k).testBit i = (decide (i = k) && b) := by
    intro b k
    rw [Nat.testBit_shiftLeft, Nat.testBit_bool_to_nat]
    by_cases h : i = k
    · subst h; simp
    · by_cases h2 : i ≥ k
      · have : ¬ i - k = 0 := by omega
        simp [h, this]
      · simp [h, h2]
  rw [(command_register_to_int_eq_or c).1]
  simp only [Nat.testBit_or, hs]

/-- Claim C10: decoding the encoded word recovers the eleven flags of every command
register, so the encoder is injective on the flags; and encoding the decoded
word gives `w & 0x07FF` for every word `w`. -/
theorem command_register_round_trip :
    (∀ c : command_register,
      (decode_command_register (command_register_to_int c)).flags = c.flags) ∧
    (∀ c d : command_register,
      command_register_to_int c = command_register_to_int d → c.flags = d.flags) ∧
    (∀ w : Nat, command_register_to_int (decode_command_register w) = w &&& 0x07FF) := by
  have hdec : ∀ c : command_register,
      (decode_command_register (command_register_to_int c)).flags = c.flags := by
    intro c
    simp only [decode_command_register, command_register.flags, command_register_to_int_testBit]
    simp
  refine ⟨hdec, ?_, ?_⟩
  · intro c d h
    rw [← hdec c, ← hdec d, h]
  · intro w
    apply Nat.eq_of_testBit_eq
    intro i
    have h7ff : (0x07FF : Nat) = 2 ^ 11 - 1 := by decide
    rw [command_register_to_int_testBit, Nat.testBit_and, h7ff, Nat.testBit_two_pow_sub_one]
    simp only [decode_command_register]
    by_cases hi : i < 11
    · interval_cases i <;> simp
    · have e0 : ¬ i = 0 := by omega
      have e1 : ¬ i = 1 := by omega
      have e2 : ¬ i = 2 := by omega
      have e3 : ¬ i = 3 := by omega
      have e4 : ¬ i = 4 := by omega
      have e5 : ¬ i = 5 := by omega
      have e6 : ¬ i = 6 := by omega
      have e7 : ¬ i = 7 := by omega
      have e8 : ¬ i = 8 := by omega
      have e9 : ¬ i = 9 := by omega
      have e10 : ¬ i = 10 := by omega
      simp [hi, e0, e1, e2, e3, e4, e5, e6, e7, e8, e9, e10]

/-! ## Writes to the simulated configuration space -/

/-- A word write to the simulated space at valid coordinates stores the 16-bit
data, zero-extended, into the addressed dword and touches no other dword. -/
theorem sim_pciConfigWriteWord (m : Machine SimState) (bus slot func offset data : Nat)
    (hbus : bus < 256) (hslot : slot < 32) (hfunc : func < 8) (hoff : offset < 256) :
    pciConfigWriteWord sim_hw bus slot func offset data m =
      { hw := { latch := config_address bus slot func offset
                space := fun b d f r =>
                  if b = bus ∧ d = slot ∧ f = func ∧ r = offset &&& 0xFC then u16 data
                  else m.hw.space b d f r }
        trace := m.trace ++ [PortEvent.out 0xCF8 (config_address bus slot func offset),
          PortEvent.out 0xCFC (u16 data)]
        screen := m.screen } := by
  rw [pciConfigWriteWord_eq sim_hw m bus slot func offset data hbus (by omega) (by omega) hoff]
  simp [sim_hw, config_address_testBit_31,
    address_bus_config_address bus slot func offset hslot hfunc hbus,
    address_slot_config_address bus slot func offset hslot hfunc,
    address_func_config_address bus slot func offset hfunc,
    address_register_config_address]

/-! ## The vendor check -/

/-- The vendor check over the simulated space at a valid bus and slot. -/
theorem sim_pciCheckVendor (m : Machine SimState) (bus slot : Nat)
    (hbus : bus < 256) (hslot : slot < 32) :
    pciCheckVendor sim_hw bus slot m =
      if u32 (m.hw.space bus slot 0 0) &&& 0xFFFF = 0xFFFF then
        (0, { hw := { latch := config_address bus slot 0 0, space := m.hw.space }
              trace := m.trace ++ [PortEvent.out 0xCF8 (config_address bus slot 0 0),
                PortEvent.inp 0xCFC (u32 (m.hw.space bus slot 0 0))]
              screen := m.screen })
      else
        (u32 (m.hw.space bus slot 0 0) >>> 16,
         { hw := { latch := config_address bus slot 0 2, space := m.hw.space }
           trace := m.trace ++ [PortEvent.out 0xCF8 (config_address bus slot 0 0),
             PortEvent.inp 0xCFC (u32 (m.hw.space bus slot 0 0)),
             PortEvent.out 0xCF8 (config_address bus slot 0 2),
             PortEvent.inp 0xCFC (u32 (m.hw.space bus slot 0 0))]
           screen := m.screen }) := by
  have h0 : (0 : Nat) &&& 0xFC = 0 := by decide
  have h2 : (2 : Nat) &&& 0xFC = 0 := by decide
  have hlow : ∀ v, select_word 0 v = v &&& 0xFFFF := fun v => select_word_low 0 v (by decide)
  have hhigh : select_word 2 (u32 (m.hw.space bus slot 0 0)) =
      u32 (m.hw.space bus slot 0 0) >>> 16 :=
    select_word_high 2 _ (by decide) (u32_lt _)
  have hlt : ∀ v : Nat, v &&& 0xFFFF < 2 ^ 16 := fun v => by
    rw [and_ffff_eq_mod]; exact Nat.mod_lt _ (by decide)
  have hhlt : u32 (m.hw.space bus slot 0 0) >>> 16 < 2 ^ 16 := by
    have := u32_lt (m.hw.space bus slot 0 0)
    rw [Nat.shiftRight_eq_div_pow]
    omega
  have hz : u16 0 = 0 := rfl
  unfold pciCheckVendor
  simp only [u8_of_lt (x := bus) hbus, u8_of_lt (x := slot) (by omega : slot < 2 ^ 8)]
  rw [sim_pciConfigReadWord m bus slot 0 0 hbus hslot (by decide) (by decide)]
  simp only [sim_word, h0, hlow, u16_of_lt (hlt _)]
  by_cases hv : u32 (m.hw.space bus slot 0 0) &&& 0xFFFF = 0xFFFF
  · rw [if_neg (not_not.mpr hv), if_pos hv, hz]
    rfl
  · rw [if_pos hv, if_neg hv,
      sim_pciConfigReadWord _ bus slot 0 2 hbus hslot (by decide) (by decide)]
    simp only [sim_word, sim_read_events, h0, h2, hhigh, u16_of_lt hhlt, List.append_assoc,
      List.cons_append, List.nil_append]

/-- Claim C11: over every simulated configuration space and every valid bus and
slot, with `v` the dword at offset 0 of function 0: if the vendor word `v & 0xFFFF`
is 0xFFFF, `pciCheckVendor` returns 0 after the single read at offset 0;
otherwise it makes a second read, at offset 2, and returns the device ID word,
the upper 16 bits of `v`. -/
theorem pciCheckVendor_result (m : Machine SimState) (bus slot : Nat)
    (hbus : bus < 256) (hslot : slot < 32) :
    (u32 (m.hw.space bus slot 0 0) &&& 0xFFFF = 0xFFFF →
      (pciCheckVendor sim_hw bus slot m).1 = 0 ∧
      (pciCheckVendor sim_hw bus slot m).2.trace =
        m.trace ++ [PortEvent.out 0xCF8 (config_address bus slot 0 0),
          PortEvent.inp 0xCFC (u32 (m.hw.space bus slot 0 0))]) ∧
    (u32 (m.hw.space bus slot 0 0) &&& 0xFFFF ≠ 0xFFFF →
      (pciCheckVendor sim_hw bus slot m).1 = u32 (m.hw.space bus slot 0 0) >>> 16 ∧
      (pciCheckVendor sim_hw bus slot m).2.trace =
        m.trace ++ [PortEvent.out 0xCF8 (config_address bus slot 0 0),
          PortEvent.inp 0xCFC (u32 (m.hw.space bus slot 0 0)),
          PortEvent.out 0xCF8 (config_address bus slot 0 2),
          PortEvent.inp 0xCFC (u32 (m.hw.space bus slot 0 0))]) := by
  rw [sim_pciCheckVendor m bus slot hbus hslot]
  constructor
  · intro hv
    rw [if_pos hv]
    exact ⟨rfl, rfl⟩
  · intro hv
    rw [if_neg hv]
    exact ⟨rfl, rfl⟩

/-- Witness for C11: the device of `single_device_space` and an empty slot. -/
theorem pciCheckVendor_result_witness :
    (pciCheckVendor sim_hw 0 5 (boot ⟨0, single_device_space⟩)).1 = 0x100E8086 >>> 16 ∧
    (pciCheckVendor sim_hw 0 6 (boot ⟨0, single_device_space⟩)).1 = 0 :=
  ⟨((pciCheckVendor_result (boot ⟨0, single_device_space⟩) 0 5 (by decide) (by decide)).2
      (by decide)).1,
   ((pciCheckVendor_result (boot ⟨0, single_device_space⟩) 0 6 (by decide) (by decide)).1
      (by decide)).1⟩

/-- Claim C12 as stated fails: on `zero_device_id_space` the vendor word at bus 0,
slot 5 is 0x8086, not 0xFFFF, and `pciCheckVendor` returns 0. -/
theorem pciCheckVendor_zero_device_id :
    (pciCheckVendor sim_hw 0 5 (boot ⟨0, zero_device_id_space⟩)).1 = 0 ∧
    u32 (zero_device_id_space 0 5 0 0) &&& 0xFFFF = 0x8086 ∧
    ¬ ((pciCheckVendor sim_hw 0 5 (boot ⟨0, zero_device_id_space⟩)).1 = 0 ↔
      u32 (zero_device_id_space 0 5 0 0) &&& 0xFFFF = 0xFFFF) := by
  decide

/-- Claim C12, amended: over every simulated configuration space and every valid
bus and slot, `pciCheckVendor` returns 0 if and only if the vendor word at offset
0 of function 0 is 0xFFFF or the device ID word (the upper 16 bits of that dword)
is 0; in particular it returns 0 whenever the vendor word is 0xFFFF. -/
theorem pciCheckVendor_zero_iff (m : Machine SimState) (bus slot : Nat)
    (hbus : bus < 256) (hslot : slot < 32) :
    ((pciCheckVendor sim_hw bus slot m).1 = 0 ↔
      (u32 (m.hw.space bus slot 0 0) &&& 0xFFFF = 0xFFFF ∨
        u32 (m.hw.space bus slot 0 0) >>> 16 = 0)) ∧
    (u32 (m.hw.space bus slot 0 0) &&& 0xFFFF = 0xFFFF →
      (pciCheckVendor sim_hw bus slot m).1 = 0) := by
  rw [sim_pciCheckVendor m bus slot hbus hslot]
  by_cases hv : u32 (m.hw.space bus slot 0 0) &&& 0xFFFF = 0xFFFF
  · rw [if_pos hv]
    exact ⟨⟨fun _ => Or.inl hv, fun _ => rfl⟩, fun _ => rfl⟩
  · rw [if_neg hv]
    exact ⟨⟨fun h => Or.inr h, fun h => h.elim (fun h1 => absurd h1 hv) id⟩,
      fun h => absurd h hv⟩

/-- Witness for C12, amended: a present device with device ID 0. -/
theorem pciCheckVendor_zero_iff_witness :
    (pciCheckVendor sim_hw 0 5 (boot ⟨0, zero_device_id_space⟩)).1 = 0 :=
  ((pciCheckVendor_zero_iff (boot ⟨0, zero_device_id_space⟩) 0 5 (by decide) (by decide)).1).2
    (Or.inr (by decide))

/-! ## Data written, and the command and status registers -/

/-- Claim C13: over any hardware, the value `pciConfigWriteWord` writes to the data
port is the 16-bit `data` itself, zero-extended to 32 bits (upper 16 bits clear)
and not shifted; it is the same value at every offset, whatever `offset & 2` is. -/
theorem pciConfigWriteWord_data_unshifted (P : PortHw σ) (m : Machine σ)
    (bus slot func offset data : Nat)
    (hbus : bus < 256) (hslot : slot < 256) (hfunc : func < 256) (hoff : offset < 256)
    (hdata : data < 2 ^ 16) :
    (pciConfigWriteWord P bus slot func offset data m).trace =
      m.trace ++ [PortEvent.out 0xCF8 (config_address bus slot func offset),
        PortEvent.out 0xCFC data] ∧
    data < 2 ^ 32 ∧ data >>> 16 = 0 ∧
    (∀ offset2, offset2 < 256 →
      (pciConfigWriteWord P bus slot func offset2 data m).trace =
        m.trace ++ [PortEvent.out 0xCF8 (config_address bus slot func offset2),
          PortEvent.out 0xCFC data]) := by
  have hshift : data >>> 16 = 0 := by
    rw [Nat.shiftRight_eq_div_pow]
    exact Nat.div_eq_of_lt hdata
  refine ⟨?_, Nat.lt_of_lt_of_le hdata (by decide), hshift, ?_⟩
  · rw [pciConfigWriteWord_eq P m bus slot func offset data hbus hslot hfunc hoff,
      u16_of_lt hdata]
  · intro offset2 hoff2
    rw [pciConfigWriteWord_eq P m bus slot func offset2 data hbus hslot hfunc hoff2,
      u16_of_lt hdata]

/-- Witness for C13: the same data at offset 0x4 and at offset 0x6. -/
theorem pciConfigWriteWord_data_unshifted_witness :
    (pciConfigWriteWord absent_hw 0 5 0 0x6 0xAB01 (boot ())).trace =
        (boot ()).trace ++ [PortEvent.out 0xCF8 (config_address 0 5 0 0x6),
          PortEvent.out 0xCFC 0xAB01] ∧
    (pciConfigWriteWord absent_hw 0 5 0 0x4 0xAB01 (boot ())).trace =
        (boot ()).trace ++ [PortEvent.out 0xCF8 (config_address 0 5 0 0x4),
          PortEvent.out 0xCFC 0xAB01] :=
  have h := pciConfigWriteWord_data_unshifted absent_hw (boot ()) 0 5 0 0x6 0xAB01
    (by decide) (by decide) (by decide) (by decide) (by decide)
  ⟨h.1, h.2.2.2 0x4 (by decide)⟩

theorem high_low_join (v : Nat) : v = ((v >>> 16) <<< 16) ||| (v &&& 0xFFFF) := by
  rw [and_ffff_eq_mod, Nat.shiftLeft_eq, Nat.shiftRight_eq_div_pow, Nat.mul_comm,
    ← Nat.mul_add_lt_is_or (Nat.mod_lt v (by decide)), Nat.div_add_mod]

/-- Claim C14: over every simulated configuration space and valid coordinates, with
`v` the 32-bit value of the dword at offset 0x4, `get_pci_command_register`
returns `v & 0xFFFF` and `get_pci_status_register` returns `v >> 16`, undecoded,
so `v = (status << 16) | command`; both write the same address (offset field
0x04) to the address port. -/
theorem command_and_status_registers (m : Machine SimState) (bus slot func v : Nat)
    (hbus : bus < 256) (hslot : slot < 32) (hfunc : func < 8)
    (hv32 : v < 2 ^ 32) (hv : m.hw.space bus slot func 0x4 = v) :
    (get_pci_command_register sim_hw bus slot func m).1 = v &&& 0xFFFF ∧
    (get_pci_status_register sim_hw bus slot func m).1 = v >>> 16 ∧
    v = (((get_pci_status_register sim_hw bus slot func m).1) <<< 16)
      ||| (get_pci_command_register sim_hw bus slot func m).1 ∧
    (get_pci_command_register sim_hw bus slot func m).2.trace =
      m.trace ++ [PortEvent.out 0xCF8 (config_address bus slot func 0x4),
        PortEvent.inp 0xCFC v] ∧
    (get_pci_status_register sim_hw bus slot func m).2.trace =
      m.trace ++ [PortEvent.out 0xCF8 (config_address bus slot func 0x4),
        PortEvent.inp 0xCFC v] ∧
    address_register (config_address bus slot func 0x4) = 0x04 := by
  have h4 : (4 : Nat) &&& 0xFC = 4 := by decide
  have h6 : (6 : Nat) &&& 0xFC = 4 := by decide
  have ha : config_address bus slot func 0x6 = config_address bus slot func 0x4 := by
    unfold config_address
    rw [h4, h6]
  have hlow : select_word 0x4 v = v &&& 0xFFFF := select_word_low 0x4 v (by decide)
  have hhigh : select_word 0x6 v = v >>> 16 := select_word_high 0x6 v (by decide) hv32
  have hlt : v &&& 0xFFFF < 2 ^ 16 := by
    rw [and_ffff_eq_mod]; exact Nat.mod_lt _ (by decide)
  have hhlt : v >>> 16 < 2 ^ 16 := by
    rw [Nat.shiftRight_eq_div_pow]
    omega
  have hc : get_pci_command_register sim_hw bus slot func m =
      (v &&& 0xFFFF, { hw := { latch := config_address bus slot func 0x4, space := m.hw.space }
                       trace := m.trace ++ [PortEvent.out 0xCF8 (config_address bus slot func 0x4),
                         PortEvent.inp 0xCFC v]
                       screen := m.screen }) := by
    unfold get_pci_command_register
    simp only [u8_of_lt (x := bus) hbus, u8_of_lt (x := slot) (by omega : slot < 2 ^ 8),
      u8_of_lt (x := func) (by omega : func < 2 ^ 8)]
    rw [sim_pciConfigReadWord m bus slot func 0x4 hbus hslot hfunc (by decide)]
    simp only [sim_word, sim_read_events, h4, hv, u32_of_lt hv32, hlow, u16_of_lt hlt]
  have hs : get_pci_status_register sim_hw bus slot func m =
      (v >>> 16, { hw := { latch := config_address bus slot func 0x4, space := m.hw.space }
                   trace := m.trace ++ [PortEvent.out 0xCF8 (config_address bus slot func 0x4),
                     PortEvent.inp 0xCFC v]
                   screen := m.screen }) := by
    unfold get_pci_status_register
    simp only [u8_of_lt (x := bus) hbus, u8_of_lt (x := slot) (by omega : slot < 2 ^ 8),
      u8_of_lt (x := func) (by omega : func < 2 ^ 8)]
    rw [sim_pciConfigReadWord m bus slot func 0x6 hbus hslot hfunc (by decide)]
    simp only [sim_word, sim_read_events, h6, hv, u32_of_lt hv32, hhigh, u16_of_lt hhlt, ha]
  rw [hc, hs]
  refine ⟨rfl, rfl, high_low_join v, rfl, rfl, ?_⟩
  rw [address_register_config_address, h4]

/-- Witness for C14: the dword 0x02100007 of `single_device_space`. -/
theorem command_and_status_registers_witness :
    (get_pci_command_register sim_hw 0 5 0 (boot ⟨0, single_device_space⟩)).1 =
      0x02100007 &&& 0xFFFF ∧
    (get_pci_status_register sim_hw 0 5 0 (boot ⟨0, single_device_space⟩)).1 =
      0x02100007 >>> 16 :=
  have h := command_and_status_registers (boot ⟨0, single_device_space⟩) 0 5 0 0x02100007
    (by decide) (by decide) (by decide) (by decide) rfl
  ⟨h.1, h.2.1⟩

/-! ## Write followed by read, and the status half of the command dword -/

theorem and_fd_fc (x : Nat) : (x &&& 0xFD) &&& 0xFC = x &&& 0xFC := by
  rw [Nat.and_assoc]
  rfl

theorem and_fd_two (x : Nat) : (x &&& 0xFD) &&& 2 = 0 := by
  rw [Nat.and_assoc]
  exact Nat.and_zero x

/-- Claim C16: over the simulated configuration space, at valid coordinates and for
16-bit data, a word read issued right after a word write at the same offset
returns the data when `offset & 2 == 0` and returns 0 when `offset & 2 == 2`; in
the second case the data sits in the lower half of the dword, where a read at
`offset & ~2` returns it, so the write-then-read round trip at such an offset
succeeds only for data 0. -/
theorem write_then_read_asymmetry (m : Machine SimState) (bus slot func offset data : Nat)
    (hbus : bus < 256) (hslot : slot < 32) (hfunc : func < 8) (hoff : offset < 256)
    (hdata : data < 2 ^ 16) :
    (offset &&& 2 = 0 →
      (pciConfigReadWord sim_hw bus slot func offset
        (pciConfigWriteWord sim_hw bus slot func offset data m)).1 = data) ∧
    (offset &&& 2 = 2 →
      (pciConfigReadWord sim_hw bus slot func offset
        (pciConfigWriteWord sim_hw bus slot func offset data m)).1 = 0 ∧
      (pciConfigReadWord sim_hw bus slot func (offset &&& 0xFD)
        (pciConfigWriteWord sim_hw bus slot func offset data m)).1 = data ∧
      ((pciConfigReadWord sim_hw bus slot func offset
        (pciConfigWriteWord sim_hw bus slot func offset data m)).1 = data ↔ data = 0)) := by
  have hfd : offset &&& 0xFD < 256 := Nat.lt_of_le_of_lt Nat.and_le_right (by decide)
  have hd32 : u32 data = data := u32_of_lt (Nat.lt_of_lt_of_le hdata (by decide))
  have hand : data &&& 0xFFFF = data := by
    rw [and_ffff_eq_mod]; exact Nat.mod_eq_of_lt hdata
  have hshift : data >>> 16 = 0 := by
    rw [Nat.shiftRight_eq_div_pow]
    exact Nat.div_eq_of_lt hdata
  rw [sim_pciConfigWriteWord m bus slot func offset data hbus hslot hfunc hoff,
    sim_pciConfigReadWord _ bus slot func offset hbus hslot hfunc hoff,
    sim_pciConfigReadWord _ bus slot func (offset &&& 0xFD) hbus hslot hfunc hfd]
  simp only [sim_word, and_fd_fc, and_self, if_true, u16_of_lt hdata, hd32]
  constructor
  · intro h0
    rw [select_word_low offset data h0, hand]
  · intro h2
    have hread : select_word offset data = 0 := by
      rw [select_word_high offset data h2 (Nat.lt_of_lt_of_le hdata (by decide)), hshift]
    rw [hread, select_word_low _ data (and_fd_two offset), hand]
    exact ⟨rfl, rfl, ⟨fun h => h.symm, fun h => h.symm⟩⟩

/-- Witness for C16: the status word 0x0210 written at offset 0x6 reads back as 0
there and as 0x0210 at offset 0x4. -/
theorem write_then_read_asymmetry_witness :
    (pciConfigReadWord sim_hw 0 5 0 0x6
      (pciConfigWriteWord sim_hw 0 5 0 0x6 0x0210 (boot ⟨0, zero_space⟩))).1 = 0 ∧
    (pciConfigReadWord sim_hw 0 5 0 (0x6 &&& 0xFD)
      (pciConfigWriteWord sim_hw 0 5 0 0x6 0x0210 (boot ⟨0, zero_space⟩))).1 = 0x0210 :=
  have h := (write_then_read_asymmetry (boot ⟨0, zero_space⟩) 0 5 0 0x6 0x0210
    (by decide) (by decide) (by decide) (by decide) (by decide)).2 (by decide)
  ⟨h.1, h.2.1⟩

/-- The command register update over the simulated space at valid coordinates:
the dword at offset 0x4 becomes the merged 16-bit word, nothing else changes. -/
theorem sim_set_pci_command_register (m : Machine SimState) (bus slot func command : Nat)
    (hbus : bus < 256) (hslot : slot < 32) (hfunc : func < 8) :
    set_pci_command_register sim_hw bus slot func command m =
      { hw := { latch := config_address bus slot func 0x4
                space := fun b d f r =>
                  if b = bus ∧ d = slot ∧ f = func ∧ r = 0x4 then
                    ((u32 (m.hw.space bus slot func 0x4) &&& 0xFFFF) &&& 0xFF00) ||| u16 command
                  else m.hw.space b d f r }
        trace := m.trace ++ [PortEvent.out 0xCF8 (config_address bus slot func 0x4),
          PortEvent.inp 0xCFC (u32 (m.hw.space bus slot func 0x4)),
          PortEvent.out 0xCF8 (config_address bus slot func 0x4),
          PortEvent.out 0xCFC
            (((u32 (m.hw.space bus slot func 0x4) &&& 0xFFFF) &&& 0xFF00) ||| u16 command)]
        screen := m.screen } := by
  have h4 : (4 : Nat) &&& 0xFC = 4 := by decide
  have hsel : ∀ v, select_word 0x4 v = v &&& 0xFFFF :=
    fun v => select_word_low 0x4 v (by decide)
  have hlt : ∀ v : Nat, v &&& 0xFFFF < 2 ^ 16 := fun v => by
    rw [and_ffff_eq_mod]; exact Nat.mod_lt _ (by decide)
  have hmerge : ∀ e : Nat,
      u16 ((e &&& 0xFF00) ||| u16 command) = (e &&& 0xFF00) ||| u16 command :=
    fun e => u16_of_lt (Nat.or_lt_two_pow
      (Nat.lt_of_le_of_lt Nat.and_le_right (by decide)) (u16_lt command))
  unfold set_pci_command_register get_pci_command_register
  simp only [u8_of_lt (x := bus) hbus, u8_of_lt (x := slot) (by omega : slot < 2 ^ 8),
    u8_of_lt (x := func) (by omega : func < 2 ^ 8)]
  rw [sim_pciConfigReadWord m bus slot func 0x4 hbus hslot hfunc (by decide),
    sim_pciConfigWriteWord _ bus slot func 0x4 _ hbus hslot hfunc (by decide)]
  simp only [sim_word, sim_read_events, h4, hsel, u16_of_lt (hlt _), hmerge, List.append_assoc,
    List.cons_append, List.nil_append]

/-- Claim C18: over the simulated configuration space, at valid coordinates, for
every prior content of the dword at offset 0x4 and every command argument, after
`set_pci_command_register` the upper 16 bits of that dword are 0 and
`get_pci_status_register` returns 0. -/
theorem set_pci_command_register_clears_status (m : Machine SimState)
    (bus slot func command : Nat)
    (hbus : bus < 256) (hslot : slot < 32) (hfunc : func < 8) :
    (set_pci_command_register sim_hw bus slot func command m).hw.space bus slot func 0x4
      >>> 16 = 0 ∧
    (get_pci_status_register sim_hw bus slot func
      (set_pci_command_register sim_hw bus slot func command m)).1 = 0 := by
  have h6 : (6 : Nat) &&& 0xFC = 4 := by decide
  have hw : ((u32 (m.hw.space bus slot func 0x4) &&& 0xFFFF) &&& 0xFF00) ||| u16 command
      < 2 ^ 16 :=
    Nat.or_lt_two_pow (Nat.lt_of_le_of_lt Nat.and_le_right (by decide)) (u16_lt command)
  have hshift : (((u32 (m.hw.space bus slot func 0x4) &&& 0xFFFF) &&& 0xFF00) ||| u16 command)
      >>> 16 = 0 := by
    rw [Nat.shiftRight_eq_div_pow]
    exact Nat.div_eq_of_lt hw
  have hz : u16 0 = 0 := rfl
  unfold get_pci_status_register
  simp only [u8_of_lt (x := bus) hbus, u8_of_lt (x := slot) (by omega : slot < 2 ^ 8),
    u8_of_lt (x := func) (by omega : func < 2 ^ 8)]
  rw [sim_set_pci_command_register m bus slot func command hbus hslot hfunc,
    sim_pciConfigReadWord _ bus slot func 0x6 hbus hslot hfunc (by decide)]
  simp only [sim_word, h6, and_self, if_true,
    u32_of_lt (Nat.lt_of_lt_of_le hw (by decide : 2 ^ 16 ≤ 2 ^ 32)),
    select_word_high 0x6 _ (by decide) (Nat.lt_of_lt_of_le hw (by decide : 2 ^ 16 ≤ 2 ^ 32)),
    hshift, hz]

/-- Witness for C18: the status 0x0210 of `single_device_space` reads 0 after the
command register is set to 0x0007. -/
theorem set_pci_command_register_clears_status_witness :
    (get_pci_status_register sim_hw 0 5 0 (boot ⟨0, single_device_space⟩)).1 = 0x0210 ∧
    (get_pci_status_register sim_hw 0 5 0
      (set_pci_command_register sim_hw 0 5 0 0x0007 (boot ⟨0, single_device_space⟩))).1 = 0 :=
  ⟨by decide, (set_pci_command_register_clears_status (boot ⟨0, single_device_space⟩)
    0 5 0 0x0007 (by decide) (by decide) (by decide)).2⟩

/-! ## Injectivity of the address encoding -/

/-- Claim C19: on valid coordinates the configuration address is injective. If a
word read at `(bus, slot, func, o)` and a word write at `(bus2, slot2, func2, o2)`
put the same value `a` on the address port, then the coordinates agree and
`o & 0xFC = o2 & 0xFC`, and the fields are recovered from `a` as
`(a >> 16) & 0xFF`, `(a >> 11) & 0x1F`, `(a >> 8) & 0x7` and `a & 0xFC`. Without
the bounds this fails: slot 32 of bus 0 is given the address of slot 0 of bus 1. -/
theorem config_address_injective (P : PortHw σ) (hw hw2 : σ)
    (bus slot func o bus2 slot2 func2 o2 d a : Nat)
    (hbus : bus < 256) (hslot : slot < 32) (hfunc : func < 8) (ho : o < 256)
    (hbus2 : bus2 < 256) (hslot2 : slot2 < 32) (hfunc2 : func2 < 8) (ho2 : o2 < 256)
    (ha : PortEvent.out 0xCF8 a ∈ (pciConfigReadWord P bus slot func o (boot hw)).2.trace)
    (ha2 : PortEvent.out 0xCF8 a ∈
      (pciConfigWriteWord P bus2 slot2 func2 o2 d (boot hw2)).trace) :
    (bus = bus2 ∧ slot = slot2 ∧ func = func2 ∧ o &&& 0xFC = o2 &&& 0xFC) ∧
    (bus = (a >>> 16) &&& 0xFF ∧ slot = (a >>> 11) &&& 0x1F ∧ func = (a >>> 8) &&& 0x7 ∧
      o &&& 0xFC = a &&& 0xFC) ∧
    (pciConfigReadWord absent_hw 0 32 0 0 (boot ())).2.trace =
      (pciConfigReadWord absent_hw 1 0 0 0 (boot ())).2.trace := by
  have e1 : a = config_address bus slot func o := by
    rw [pciConfigReadWord_eq P (boot hw) bus slot func o hbus (by omega) (by omega) ho] at ha
    simpa [boot] using ha
  have e2 : a = config_address bus2 slot2 func2 o2 := by
    rw [pciConfigWriteWord_eq P (boot hw2) bus2 slot2 func2 o2 d hbus2 (by omega) (by omega)
      ho2] at ha2
    have h78 : ¬ ((0xCF8 : Nat) = 0xCFC) := by decide
    simpa [boot, h78] using ha2
  have b1 := address_bus_config_address bus slot func o hslot hfunc hbus
  have s1 := address_slot_config_address bus slot func o hslot hfunc
  have f1 := address_func_config_address bus slot func o hfunc
  have r1 := address_register_config_address bus slot func o
  have b2 := address_bus_config_address bus2 slot2 func2 o2 hslot2 hfunc2 hbus2
  have s2 := address_slot_config_address bus2 slot2 func2 o2 hslot2 hfunc2
  have f2 := address_func_config_address bus2 slot2 func2 o2 hfunc2
  have r2 := address_register_config_address bus2 slot2 func2 o2
  rw [← e1] at b1 s1 f1 r1
  rw [← e2] at b2 s2 f2 r2
  refine ⟨⟨b1.symm.trans b2, s1.symm.trans s2, f1.symm.trans f2, r1.symm.trans r2⟩,
    ⟨b1.symm, s1.symm, f1.symm, r1.symm⟩, ?_⟩
  decide

/-- Witness for C19: a read and a write at bus 0, slot 5, function 0, offsets 0x4
and 0x6, both putting 0x80002804 on the address port. -/
theorem config_address_injective_witness :
    (0x4 : Nat) &&& 0xFC = 0x6 &&& 0xFC ∧ (5 : Nat) = (0x80002804 >>> 11) &&& 0x1F :=
  have h := config_address_injective absent_hw () () 0 5 0 0x4 0 5 0 0x6 0xAB01 0x80002804
    (by decide) (by decide) (by decide) (by decide) (by decide) (by decide) (by decide)
    (by decide) (by decide) (by decide)
  ⟨h.1.2.2.2, h.2.1.2.1⟩

/-! ## Trace structure -/

theorem AccessPairs.append {ok : Nat → Prop} {wr : Bool} {l1 l2 : List PortEvent}
    (h1 : AccessPairs ok wr l1) (h2 : AccessPairs ok wr l2) : AccessPairs ok wr (l1 ++ l2) := by
  induction h1 with
  | nil => exact h2
  | read a v rest hok _ ih => exact AccessPairs.read a v _ hok ih
  | write a d rest hwr hok _ ih => exact AccessPairs.write a d _ hwr hok ih

theorem AccessPairs.mono {ok ok2 : Nat → Prop} {wr wr2 : Bool} {l : List PortEvent}
    (hok : ∀ a, ok a → ok2 a) (hwr : wr = true → wr2 = true)
    (h : AccessPairs ok wr l) : AccessPairs ok2 wr2 l := by
  induction h with
  | nil => exact AccessPairs.nil
  | read a v rest ha _ ih => exact AccessPairs.read a v _ (hok a ha) ih
  | write a d rest hw ha _ ih => exact AccessPairs.write a d _ (hwr hw) (hok a ha) ih

/-- In a sequence of read accesses every port write goes to the address port and
carries an address satisfying `ok`. -/
theorem AccessPairs.out_mem {ok : Nat → Prop} {l : List PortEvent}
    (h : AccessPairs ok false l) :
    ∀ p a, PortEvent.out p a ∈ l → p = 0xCF8 ∧ ok a := by
  induction h with
  | nil => intro p a hm; simp at hm
  | read a v rest ha _ ih =>
    intro p b hm
    simp only [List.mem_cons, PortEvent.out.injEq, reduceCtorEq, false_or] at hm
    rcases hm with ⟨hp, hb⟩ | hm
    · exact ⟨hp, hb ▸ ha⟩
    · exact ih p b hm
  | write a d rest hw _ _ _ => exact absurd hw (by decide)

theorem AccessPairs.reads (ok : Nat → Prop) (wr : Bool) (addr : Nat → Nat) :
    ∀ l : List (Nat × Nat), (∀ p ∈ l, ok (addr p.1)) →
      AccessPairs ok wr (l.flatMap (fun p =>
        [PortEvent.out 0xCF8 (addr p.1), PortEvent.inp 0xCFC p.2])) := by
  intro l
  induction l with
  | nil => intro _; exact AccessPairs.nil
  | cons p l ih =>
    intro h
    rw [List.flatMap_cons]
    exact AccessPairs.append
      (AccessPairs.read _ _ _ (h p (List.mem_cons_self p l)) AccessPairs.nil)
      (ih (fun q hq => h q (List.mem_cons_of_mem p hq)))

theorem ReadOnlyStep.refl (P : PortHw σ) (ok : Nat → Prop) (m : Machine σ) :
    ReadOnlyStep P ok m m :=
  ⟨[], (List.append_nil _).symm, AccessPairs.nil, fun _ _ h => h⟩

theorem ReadOnlyStep.trans {P : PortHw σ} {ok : Nat → Prop} {m1 m2 m3 : Machine σ}
    (h12 : ReadOnlyStep P ok m1 m2) (h23 : ReadOnlyStep P ok m2 m3) :
    ReadOnlyStep P ok m1 m3 := by
  obtain ⟨t1, e1, p1, i1⟩ := h12
  obtain ⟨t2, e2, p2, i2⟩ := h23
  refine ⟨t1 ++ t2, ?_, AccessPairs.append p1 p2, fun I hI h => i2 I hI (i1 I hI h)⟩
  rw [e2, e1, List.append_assoc]

theorem ReadOnlyStep.mono_ok {P : PortHw σ} {ok ok2 : Nat → Prop} {m1 m2 : Machine σ}
    (hok : ∀ a, ok a → ok2 a) (h : ReadOnlyStep P ok m1 m2) : ReadOnlyStep P ok2 m1 m2 := by
  obtain ⟨t, e, p, i⟩ := h
  exact ⟨t, e, AccessPairs.mono hok (fun h => h) p, i⟩

theorem ReadOnlyStep.foldl_steps {ι : Type} (P : PortHw σ) (ok : Nat → Prop) (l : List ι)
    (step : Machine σ → ι → Machine σ)
    (hstep : ∀ j ∈ l, ∀ m, ReadOnlyStep P ok m (step m j)) :
    ∀ m, ReadOnlyStep P ok m (l.foldl step m) := by
  induction l with
  | nil => intro m; exact ReadOnlyStep.refl P ok m
  | cons j l ih =>
    intro m
    rw [List.foldl_cons]
    exact ReadOnlyStep.trans (hstep j (List.mem_cons_self j l) m)
      (ih (fun k hk => hstep k (List.mem_cons_of_mem j hk)) (step m j))

theorem ScanCount.foldl_count {ι : Type} (c : Nat) (l : List ι)
    (step : Machine σ → ι → Machine σ)
    (hstep : ∀ j ∈ l, ∀ m, ScanCount c m (step m j)) :
    ∀ m, ScanCount (l.length * c) m (l.foldl step m) := by
  induction l with
  | nil => intro m; exact ⟨0, by simp, by simp⟩
  | cons j l ih =>
    intro m
    rw [List.foldl_cons]
    obtain ⟨k1, t1, s1⟩ := hstep j (List.mem_cons_self j l) m
    obtain ⟨k2, t2, s2⟩ := ih (fun k hk => hstep k (List.mem_cons_of_mem j hk)) (step m j)
    have hl : (j :: l).length * c = l.length * c + c := by
      rw [List.length_cons, Nat.add_mul, Nat.one_mul]
    refine ⟨k1 + k2, ?_, ?_⟩
    · rw [t2, t1, hl]
      omega
    · rw [s2, s1]
      omega

/-! ## The operations as sequences of logical accesses -/

theorem pciConfigReadWord_step (P : PortHw σ) (m : Machine σ) (bus slot func offset : Nat)
    (hbus : bus < 256) (hslot : slot < 256) (hfunc : func < 256) (hoff : offset < 256) :
    ReadOnlyStep P (function_address bus slot func) m
      (pciConfigReadWord P bus slot func offset m).2 ∧
    (pciConfigReadWord P bus slot func offset m).2.trace.length = m.trace.length + 2 ∧
    (pciConfigReadWord P bus slot func offset m).2.screen = m.screen := by
  rw [pciConfigReadWord_eq P m bus slot func offset hbus hslot hfunc hoff]
  refine ⟨⟨_, rfl, AccessPairs.read _ _ _ ⟨offset, hoff, rfl⟩ AccessPairs.nil,
    fun I hI h => hI _ _ h⟩, ?_, rfl⟩
  simp

theorem raw_reads_stable (P : PortHw σ) (bus slot func : Nat) (I : σ → Prop)
    (hI : ∀ a hw, I hw → I (P.inp 0xCFC (P.out 0xCF8 a hw)).2) :
    ∀ (offsets : List Nat) (hw : σ), I hw → I (raw_reads P bus slot func offsets hw).2 := by
  intro offsets
  induction offsets with
  | nil => intro hw h; exact h
  | cons o rest ih =>
    intro hw h
    simp only [raw_reads]
    exact ih _ (hI _ _ h)

theorem get_pci_device_step (P : PortHw σ) (m : Machine σ) (bus slot func : Nat)
    (hbus : bus < 256) (hslot : slot < 256) (hfunc : func < 256) :
    ReadOnlyStep P (function_address bus slot func) m (get_pci_device P bus slot func m).2 ∧
    (get_pci_device P bus slot func m).2.trace.length = m.trace.length + 24 ∧
    (get_pci_device P bus slot func m).2.screen = m.screen := by
  obtain ⟨htr, _, hsc, hhw⟩ := get_pci_device_eq P m bus slot func hbus hslot hfunc
  have hlen := raw_reads_length P bus slot func
    [0x0, 0x2, 0x4, 0x6, 0x8, 0xA, 0xC, 0xE, 0x10, 0x12, 0x14, 0x16] m.hw
  refine ⟨⟨_, htr, ?_, ?_⟩, ?_, hsc⟩
  · apply AccessPairs.reads (function_address bus slot func) false
      (fun o => config_address bus slot func o)
    intro p hp
    have hmem := (List.of_mem_zip hp).1
    refine ⟨p.1, ?_, rfl⟩
    simp only [List.mem_cons, List.mem_singleton, List.not_mem_nil, or_false] at hmem
    omega
  · intro I hI h
    rw [hhw]
    exact raw_reads_stable P bus slot func I hI _ m.hw h
  · have hfl := length_flatMap_of_forall
      (List.zip [0x0, 0x2, 0x4, 0x6, 0x8, 0xA, 0xC, 0xE, 0x10, 0x12, 0x14, 0x16]
        (raw_reads P bus slot func
          [0x0, 0x2, 0x4, 0x6, 0x8, 0xA, 0xC, 0xE, 0x10, 0x12, 0x14, 0x16] m.hw).1)
      (fun p => [PortEvent.out 0xCF8 (config_address bus slot func p.1),
        PortEvent.inp 0xCFC p.2]) 2 (fun _ _ => rfl)
    rw [htr, List.length_append, hfl, List.length_zip, hlen]
    rfl

theorem pciCheckVendor_step (P : PortHw σ) (m : Machine σ) (bus slot : Nat)
    (hbus : bus < 256) (hslot : slot < 256) :
    ReadOnlyStep P (function_address bus slot 0) m (pciCheckVendor P bus slot m).2 := by
  have h0 := (pciConfigReadWord_step P m bus slot 0 0 hbus hslot (by decide) (by decide)).1
  unfold pciCheckVendor
  simp only [u8_of_lt (x := bus) hbus, u8_of_lt (x := slot) hslot]
  split
  · exact ReadOnlyStep.trans h0
      (pciConfigReadWord_step P _ bus slot 0 2 hbus hslot (by decide) (by decide)).1
  · exact h0

theorem get_pci_command_register_step (P : PortHw σ) (m : Machine σ) (bus slot func : Nat)
    (hbus : bus < 256) (hslot : slot < 256) (hfunc : func < 256) :
    ReadOnlyStep P (function_address bus slot func) m
      (get_pci_command_register P bus slot func m).2 := by
  unfold get_pci_command_register
  simp only [u8_of_lt (x := bus) hbus, u8_of_lt (x := slot) hslot, u8_of_lt (x := func) hfunc]
  exact (pciConfigReadWord_step P m bus slot func 0x4 hbus hslot hfunc (by decide)).1

theorem get_pci_status_register_step (P : PortHw σ) (m : Machine σ) (bus slot func : Nat)
    (hbus : bus < 256) (hslot : slot < 256) (hfunc : func < 256) :
    ReadOnlyStep P (function_address bus slot func) m
      (get_pci_status_register P bus slot func m).2 := by
  unfold get_pci_status_register
  simp only [u8_of_lt (x := bus) hbus, u8_of_lt (x := slot) hslot, u8_of_lt (x := func) hfunc]
  exact (pciConfigReadWord_step P m bus slot func 0x6 hbus hslot hfunc (by decide)).1

theorem function_address_scan (bus slot func : Nat)
    (hbus : bus < 32) (hslot : slot < 32) (hfunc : func < 8) :
    ∀ a, function_address bus slot func a → scan_address a :=
  fun _ ⟨o, ho, ha⟩ => ⟨bus, slot, func, o, hbus, hslot, hfunc, ho, ha⟩

/-- One iteration of the scan over any hardware: one vendor probe, then the
twelve header reads and one record of six screen calls if the probe answered. -/
theorem get_all_pci_devices_body_step (P : PortHw σ) (m : Machine σ) (bus slot func : Nat)
    (hbus : bus < 32) (hslot : slot < 32) (hfunc : func < 8) :
    ReadOnlyStep P scan_address m (get_all_pci_devices_body P bus slot func m) ∧
    ScanCount 1 m (get_all_pci_devices_body P bus slot func m) := by
  obtain ⟨r1, r2, r3⟩ :=
    pciConfigReadWord_step P m bus slot func 0 (by omega) (by omega) (by omega) (by decide)
  obtain ⟨d1, d2, d3⟩ := get_pci_device_step P (pciConfigReadWord P bus slot func 0 m).2
    bus slot func (by omega) (by omega) (by omega)
  have hmono := function_address_scan bus slot func hbus hslot hfunc
  unfold get_all_pci_devices_body
  simp only
  split
  · constructor
    · obtain ⟨ts, e, p, i⟩ := ReadOnlyStep.mono_ok hmono (ReadOnlyStep.trans r1 d1)
      exact ⟨ts, e, p, i⟩
    · refine ⟨1, ?_, ?_⟩
      · simp only [kprint, kprint_hex]
        rw [d2, r2]
      · simp only [kprint, kprint_hex, List.length_append, List.length_singleton]
        rw [d3, r3]
  · exact ⟨ReadOnlyStep.mono_ok hmono r1, ⟨0, by rw [r2], by rw [r3]; rfl⟩⟩

/-- The scan over any hardware: read accesses only, all at buses below 32, and
`32 * 32 * 8` vendor probes. -/
theorem scan_fold_step (P : PortHw σ) (m : Machine σ) :
    ReadOnlyStep P scan_address m (scan_fold P m) ∧
    ScanCount (32 * (32 * (8 * 1))) m (scan_fold P m) := by
  have hr32 : (List.range' 0 32).length = 32 := List.length_range' 0 1 32
  have hr8 : (List.range' 0 8).length = 8 := List.length_range' 0 1 8
  unfold scan_fold
  constructor
  · apply ReadOnlyStep.foldl_steps
    intro bus hbus m
    apply ReadOnlyStep.foldl_steps
    intro slot hslot m
    apply ReadOnlyStep.foldl_steps
    intro func hfunc m
    rw [List.mem_range'_1] at hbus hslot hfunc
    exact (get_all_pci_devices_body_step P m bus slot func (by omega) (by omega) (by omega)).1
  · have h := ScanCount.foldl_count (32 * (8 * 1)) (List.range' 0 32)
      (fun (m : Machine σ) bus =>
        (List.range' 0 32).foldl (fun m slot =>
          (List.range' 0 8).foldl (fun m func =>
            get_all_pci_devices_body P bus slot func m) m) m) ?_ m
    · rw [hr32] at h
      exact h
    · intro bus hbus m
      have h2 := ScanCount.foldl_count (8 * 1) (List.range' 0 32)
        (fun (m : Machine σ) slot =>
          (List.range' 0 8).foldl (fun m func =>
            get_all_pci_devices_body P bus slot func m) m) ?_ m
      · rw [hr32] at h2
        exact h2
      · intro slot hslot m
        have h3 := ScanCount.foldl_count 1 (List.range' 0 8)
          (fun (m : Machine σ) func => get_all_pci_devices_body P bus slot func m) ?_ m
        · rw [hr8] at h3
          exact h3
        · intro func hfunc m
          rw [List.mem_range'_1] at hbus hslot hfunc
          exact (get_all_pci_devices_body_step P m bus slot func (by omega) (by omega)
            (by omega)).2

/-! ## Protocol ordering, the bound of the scan, and read-only operations -/

theorem ReadOnlyStep.trace_no_data_write {P : PortHw σ} {ok : Nat → Prop} {m m2 : Machine σ}
    (h : ReadOnlyStep P ok m m2) : no_data_write m.trace m2.trace := by
  obtain ⟨ts, e, p, _⟩ := h
  refine ⟨ts, e, fun d hd => ?_⟩
  have := (AccessPairs.out_mem p 0xCFC d hd).1
  exact absurd this (by decide)

theorem ReadOnlyStep.sim_space {ok : Nat → Prop} {m m2 : Machine SimState}
    (h : ReadOnlyStep sim_hw ok m m2) : m2.hw.space = m.hw.space := by
  obtain ⟨_, _, _, i⟩ := h
  exact i (fun hw => hw.space = m.hw.space) (fun a hw hhw => by simpa [sim_hw] using hhw) rfl

/-- Claim C17: over any hardware and with fuel at least 33 the scan finishes; its
three counters run through 0..31, 0..31 and 0..7 without wrapping (the result is
the nested fold `scan_fold`, and no increment of a counter below its bound
leaves the 8-bit range); the trace grows by `32 * 32 * 8 = 8192` vendor probes
plus twelve header reads for each of the `k` reported devices; and every port
write goes to the address port with the address of a function on a bus below 32. -/
theorem scan_bounded_by_slot_bound (P : PortHw σ) (m : Machine σ) (fuel : Nat)
    (hfuel : 33 ≤ fuel) :
    ∃ m2 ts k, get_all_pci_devices P fuel m = some m2 ∧ m2 = scan_fold P m ∧
      m2.trace = m.trace ++ ts ∧
      ts.length = 2 * (32 * 32 * 8 + 12 * k) ∧ 32 * 32 * 8 = 8192 ∧
      m2.screen.length = m.screen.length + 6 * k ∧
      (∀ p a, PortEvent.out p a ∈ ts → p = 0xCF8 ∧ address_bus a < 32 ∧ scan_address a) ∧
      (∀ i, i < MAX_SLOT → u8 (i + 1) = i + 1) ∧
      (∀ i, i < MAX_FUNC → u8 (i + 1) = i + 1) := by
  obtain ⟨⟨ts, e, p, _⟩, ⟨k, hlen, hscr⟩⟩ := scan_fold_step P m
  refine ⟨scan_fold P m, ts, k, get_all_pci_devices_eq P fuel m hfuel, rfl, e, ?_, rfl, hscr,
    ?_, ?_, ?_⟩
  · rw [e, List.length_append] at hlen
    omega
  · intro port a hmem
    obtain ⟨hp, hs⟩ := AccessPairs.out_mem p port a hmem
    obtain ⟨b, s, f, o, hb, hs2, hf, ho, ha⟩ := hs
    refine ⟨hp, ?_, b, s, f, o, hb, hs2, hf, ho, ha⟩
    rw [ha, address_bus_config_address b s f o hs2 hf (by omega)]
    exact hb
  · intro i hi
    exact u8_of_lt (by simp only [MAX_SLOT] at hi; omega)
  · intro i hi
    exact u8_of_lt (by simp only [MAX_FUNC] at hi; omega)

/-- Witness for C17: the scan with nothing behind the ports and fuel 33. -/
theorem scan_bounded_by_slot_bound_witness :
    ∃ m2 ts k, get_all_pci_devices absent_hw 33 (boot ()) = some m2 ∧
      m2 = scan_fold absent_hw (boot ()) ∧
      m2.trace = (boot ()).trace ++ ts ∧
      ts.length = 2 * (32 * 32 * 8 + 12 * k) :=
  let ⟨m2, ts, k, h1, h2, h3, h4, _⟩ :=
    scan_bounded_by_slot_bound absent_hw (boot ()) 33 (by decide)
  ⟨m2, ts, k, h1, h2, h3, h4⟩

/-- Claim C20: over any hardware the traces of the word read, the vendor check, the
header read, the command and status register reads and the scan contain no
write to the data port, and over the simulated space these operations leave
every register unchanged; `set_pci_command_register` makes exactly one
data-port write, right after writing the address of offset 0x4 of the given
function, and over the simulated space it changes no other dword. -/
theorem read_only_operations (P : PortHw σ) (m : Machine σ) (ms : Machine SimState)
    (bus slot func offset command fuel : Nat)
    (hbus : bus < 256) (hslot : slot < 32) (hfunc : func < 8) (hoff : offset < 256)
    (hcommand : command < 2 ^ 16) (hfuel : 33 ≤ fuel) :
    (no_data_write m.trace (pciConfigReadWord P bus slot func offset m).2.trace ∧
      (pciConfigReadWord sim_hw bus slot func offset ms).2.hw.space = ms.hw.space) ∧
    (no_data_write m.trace (pciCheckVendor P bus slot m).2.trace ∧
      (pciCheckVendor sim_hw bus slot ms).2.hw.space = ms.hw.space) ∧
    (no_data_write m.trace (get_pci_device P bus slot func m).2.trace ∧
      (get_pci_device sim_hw bus slot func ms).2.hw.space = ms.hw.space) ∧
    (no_data_write m.trace (get_pci_command_register P bus slot func m).2.trace ∧
      (get_pci_command_register sim_hw bus slot func ms).2.hw.space = ms.hw.space) ∧
    (no_data_write m.trace (get_pci_status_register P bus slot func m).2.trace ∧
      (get_pci_status_register sim_hw bus slot func ms).2.hw.space = ms.hw.space) ∧
    (∃ m2 ms2, get_all_pci_devices P fuel m = some m2 ∧ no_data_write m.trace m2.trace ∧
      get_all_pci_devices sim_hw fuel ms = some ms2 ∧ ms2.hw.space = ms.hw.space) ∧
    (∃ v w, (set_pci_command_register P bus slot func command m).trace =
        m.trace ++ [PortEvent.out 0xCF8 (config_address bus slot func 0x4),
          PortEvent.inp 0xCFC v,
          PortEvent.out 0xCF8 (config_address bus slot func 0x4),
          PortEvent.out 0xCFC w] ∧
      List.countP is_data_write
        [PortEvent.out 0xCF8 (config_address bus slot func 0x4),
          PortEvent.inp 0xCFC v,
          PortEvent.out 0xCF8 (config_address bus slot func 0x4),
          PortEvent.out 0xCFC w] = 1) ∧
    (∀ b d f r, ¬ (b = bus ∧ d = slot ∧ f = func ∧ r = 0x4) →
      (set_pci_command_register sim_hw bus slot func command ms).hw.space b d f r =
        ms.hw.space b d f r) := by
  have hs8 : slot < 256 := by omega
  have hf8 : func < 256 := by omega
  refine ⟨⟨?_, ?_⟩, ⟨?_, ?_⟩, ⟨?_, ?_⟩, ⟨?_, ?_⟩, ⟨?_, ?_⟩, ?_, ?_, ?_⟩
  · exact (pciConfigReadWord_step P m bus slot func offset hbus hs8 hf8 hoff).1.trace_no_data_write
  · exact (pciConfigReadWord_step sim_hw ms bus slot func offset hbus hs8 hf8 hoff).1.sim_space
  · exact (pciCheckVendor_step P m bus slot hbus hs8).trace_no_data_write
  · exact (pciCheckVendor_step sim_hw ms bus slot hbus hs8).sim_space
  · exact (get_pci_device_step P m bus slot func hbus hs8 hf8).1.trace_no_data_write
  · exact (get_pci_device_step sim_hw ms bus slot func hbus hs8 hf8).1.sim_space
  · exact (get_pci_command_register_step P m bus slot func hbus hs8 hf8).trace_no_data_write
  · exact (get_pci_command_register_step sim_hw ms bus slot func hbus hs8 hf8).sim_space
  · exact (get_pci_status_register_step P m bus slot func hbus hs8 hf8).trace_no_data_write
  · exact (get_pci_status_register_step sim_hw ms bus slot func hbus hs8 hf8).sim_space
  · exact ⟨_, _, get_all_pci_devices_eq P fuel m hfuel, (scan_fold_step P m).1.trace_no_data_write,
      get_all_pci_devices_eq sim_hw fuel ms hfuel, (scan_fold_step sim_hw ms).1.sim_space⟩
  · refine ⟨_, _, set_pci_command_register_eq P m bus slot func command hbus hs8 hf8
      hcommand, ?_⟩
    simp [List.countP_cons, is_data_write]
  · intro b d f r hne
    rw [sim_set_pci_command_register ms bus slot func command hbus hslot hfunc]
    simp only [if_neg hne]

/-- Witness for C20: on `single_device_space` the header read at bus 0, slot 5,
function 0 leaves the space as it was. -/
theorem read_only_operations_witness :
    (get_pci_device sim_hw 0 5 0 (boot ⟨0, single_device_space⟩)).2.hw.space =
      (boot (⟨0, single_device_space⟩ : SimState)).hw.space :=
  (read_only_operations absent_hw (boot ()) (boot ⟨0, single_device_space⟩) 0 5 0 0x4 0x0007 33
    (by decide) (by decide) (by decide) (by decide) (by decide) (by decide)).2.2.1.2

/-! ## Protocol ordering -/

theorem AccessSeq.trace_length {cs : List (Nat × Nat × Nat × Nat)} {ts : List PortEvent}
    (h : AccessSeq cs ts) : ts.length = 2 * cs.length := by
  induction h with
  | nil => rfl
  | read c v cs rest _ ih => simp only [List.length_cons, ih]; omega
  | write c d cs rest _ ih => simp only [List.length_cons, ih]; omega

theorem AccessSeq.at_access {cs : List (Nat × Nat × Nat × Nat)} {ts : List PortEvent}
    (h : AccessSeq cs ts) :
    ∀ j c, cs[j]? = some c →
      ts[2 * j]? = some (PortEvent.out 0xCF8 (config_address c.1 c.2.1 c.2.2.1 c.2.2.2)) ∧
      ∃ e, ts[2 * j + 1]? = some e ∧ is_data_access e = true := by
  induction h with
  | nil => intro j c hj; simp at hj
  | read c0 v cs rest _ ih =>
    intro j c hj
    match j with
    | 0 =>
      simp only [List.getElem?_cons_zero, Option.some.injEq] at hj
      subst hj
      exact ⟨by simp, PortEvent.inp 0xCFC v, by simp, rfl⟩
    | j + 1 =>
      simp only [List.getElem?_cons_succ] at hj
      have e1 : 2 * (j + 1) = 2 * j + 1 + 1 := by omega
      rw [e1]
      simpa only [List.getElem?_cons_succ] using ih j c hj
  | write c0 d cs rest _ ih =>
    intro j c hj
    match j with
    | 0 =>
      simp only [List.getElem?_cons_zero, Option.some.injEq] at hj
      subst hj
      exact ⟨by simp, PortEvent.out 0xCFC d, by simp, rfl⟩
    | j + 1 =>
      simp only [List.getElem?_cons_succ] at hj
      have e1 : 2 * (j + 1) = 2 * j + 1 + 1 := by omega
      rw [e1]
      simpa only [List.getElem?_cons_succ] using ih j c hj

theorem AccessSeq.at_data {cs : List (Nat × Nat × Nat × Nat)} {ts : List PortEvent}
    (h : AccessSeq cs ts) :
    ∀ i e, ts[i]? = some e → is_data_access e = true →
      ∃ j c, i = 2 * j + 1 ∧ cs[j]? = some c ∧
        ts[i - 1]? = some (PortEvent.out 0xCF8 (config_address c.1 c.2.1 c.2.2.1 c.2.2.2)) := by
  induction h with
  | nil => intro i e hi _; simp at hi
  | read c0 v cs rest _ ih =>
    intro i e hi hd
    match i with
    | 0 =>
      simp only [List.getElem?_cons_zero, Option.some.injEq] at hi
      subst hi
      simp [is_data_access] at hd
    | 1 =>
      exact ⟨0, c0, by omega, by simp, by simp⟩
    | i + 2 =>
      simp only [List.getElem?_cons_succ] at hi
      obtain ⟨j, c, hij, hc, hprev⟩ := ih i e hi hd
      refine ⟨j + 1, c, by omega, by simpa only [List.getElem?_cons_succ] using hc, ?_⟩
      have e1 : i + 2 - 1 = (i - 1) + 1 + 1 := by omega
      rw [e1]
      simpa only [List.getElem?_cons_succ] using hprev
  | write c0 d cs rest _ ih =>
    intro i e hi hd
    match i with
    | 0 =>
      simp only [List.getElem?_cons_zero, Option.some.injEq] at hi
      subst hi
      simp [is_data_access] at hd
    | 1 =>
      exact ⟨0, c0, by omega, by simp, by simp⟩
    | i + 2 =>
      simp only [List.getElem?_cons_succ] at hi
      obtain ⟨j, c, hij, hc, hprev⟩ := ih i e hi hd
      refine ⟨j + 1, c, by omega, by simpa only [List.getElem?_cons_succ] using hc, ?_⟩
      have e1 : i + 2 - 1 = (i - 1) + 1 + 1 := by omega
      rw [e1]
      simpa only [List.getElem?_cons_succ] using hprev

/-- A trace built access by access is protocol ordered against its accesses. -/
theorem AccessSeq.ordered_seq {cs : List (Nat × Nat × Nat × Nat)} {ts : List PortEvent}
    (h : AccessSeq cs ts) : protocol_ordered cs ts :=
  ⟨h.trace_length, h.at_access, h.at_data⟩

theorem AccessSeq.append_seq {cs1 cs2 : List (Nat × Nat × Nat × Nat)} {t1 t2 : List PortEvent}
    (h1 : AccessSeq cs1 t1) (h2 : AccessSeq cs2 t2) : AccessSeq (cs1 ++ cs2) (t1 ++ t2) := by
  induction h1 with
  | nil => exact h2
  | read c v cs rest _ ih => exact AccessSeq.read c v _ _ ih
  | write c d cs rest _ ih => exact AccessSeq.write c d _ _ ih

theorem AccessSeq.of_reads (bus slot func : Nat) :
    ∀ (offsets vs : List Nat), vs.length = offsets.length →
      AccessSeq (offsets.map (fun o => (bus, slot, func, o)))
        ((List.zip offsets vs).flatMap (fun p =>
          [PortEvent.out 0xCF8 (config_address bus slot func p.1), PortEvent.inp 0xCFC p.2])) := by
  intro offsets
  induction offsets with
  | nil => intro vs _; exact AccessSeq.nil
  | cons o rest ih =>
    intro vs hlen
    match vs, hlen with
    | v :: vs2, hlen =>
      simp only [List.length_cons, Nat.add_right_cancel_iff] at hlen
      simp only [List.map_cons, List.zip_cons_cons, List.flatMap_cons, List.cons_append,
        List.nil_append]
      exact AccessSeq.read (bus, slot, func, o) v _ _ (ih vs2 hlen)

theorem AccessStep.refl_step (m : Machine σ) : AccessStep [] m m :=
  ⟨[], (List.append_nil _).symm, AccessSeq.nil⟩

theorem AccessStep.trans_step {c1 c2 : List (Nat × Nat × Nat × Nat)} {m1 m2 m3 : Machine σ}
    (h12 : AccessStep c1 m1 m2) (h23 : AccessStep c2 m2 m3) : AccessStep (c1 ++ c2) m1 m3 := by
  obtain ⟨t1, e1, p1⟩ := h12
  obtain ⟨t2, e2, p2⟩ := h23
  exact ⟨t1 ++ t2, by rw [e2, e1, List.append_assoc], AccessSeq.append_seq p1 p2⟩

theorem AccessStep.ordered_step {cs : List (Nat × Nat × Nat × Nat)} {m m2 : Machine σ}
    (h : AccessStep cs m m2) : ∃ ts, m2.trace = m.trace ++ ts ∧ protocol_ordered cs ts := by
  obtain ⟨ts, e, p⟩ := h
  exact ⟨ts, e, p.ordered_seq⟩

/-- Folding steps over a list without repetition, each step making the accesses
`seg j k` for some `k`: the fold makes the concatenation of these accesses. -/
theorem AccessStep.foldl_nodup {κ : Type} (k0 : κ) (seg : Nat → κ → List (Nat × Nat × Nat × Nat))
    (step : Machine σ → Nat → Machine σ) :
    ∀ (l : List Nat), l.Nodup →
      (∀ j ∈ l, ∀ m, ∃ k, AccessStep (seg j k) m (step m j)) →
      ∀ m, ∃ K : Nat → κ, AccessStep (l.flatMap (fun j => seg j (K j))) m (l.foldl step m) := by
  intro l
  induction l with
  | nil => intro _ _ m; exact ⟨fun _ => k0, AccessStep.refl_step m⟩
  | cons j l ih =>
    intro hnd hstep m
    rw [List.nodup_cons] at hnd
    obtain ⟨k, hk⟩ := hstep j (List.mem_cons_self j l) m
    obtain ⟨K2, hK2⟩ := ih hnd.2 (fun x hx => hstep x (List.mem_cons_of_mem j hx)) (step m j)
    refine ⟨fun x => if x = j then k else K2 x, ?_⟩
    have hcongr : l.flatMap (fun x => seg x (if x = j then k else K2 x)) =
        l.flatMap (fun x => seg x (K2 x)) := by
      apply flatMap_congr_of_forall
      intro x hx
      have hne : ¬ x = j := fun h => hnd.1 (h ▸ hx)
      simp only [if_neg hne]
    rw [List.foldl_cons, List.flatMap_cons, hcongr]
    simp only [if_true]
    exact AccessStep.trans_step hk hK2

theorem pciConfigReadWord_access (P : PortHw σ) (m : Machine σ) (bus slot func offset : Nat)
    (hbus : bus < 256) (hslot : slot < 256) (hfunc : func < 256) (hoff : offset < 256) :
    AccessStep [(bus, slot, func, offset)] m (pciConfigReadWord P bus slot func offset m).2 := by
  rw [pciConfigReadWord_eq P m bus slot func offset hbus hslot hfunc hoff]
  exact ⟨_, rfl, AccessSeq.read (bus, slot, func, offset) _ _ _ AccessSeq.nil⟩

theorem pciConfigWriteWord_access (P : PortHw σ) (m : Machine σ)
    (bus slot func offset data : Nat)
    (hbus : bus < 256) (hslot : slot < 256) (hfunc : func < 256) (hoff : offset < 256) :
    AccessStep [(bus, slot, func, offset)] m
      (pciConfigWriteWord P bus slot func offset data m) := by
  rw [pciConfigWriteWord_eq P m bus slot func offset data hbus hslot hfunc hoff]
  exact ⟨_, rfl, AccessSeq.write (bus, slot, func, offset) _ _ _ AccessSeq.nil⟩

theorem get_pci_device_access (P : PortHw σ) (m : Machine σ) (bus slot func : Nat)
    (hbus : bus < 256) (hslot : slot < 256) (hfunc : func < 256) :
    AccessStep (header_accesses bus slot func) m (get_pci_device P bus slot func m).2 :=
  ⟨_, (get_pci_device_eq P m bus slot func hbus hslot hfunc).1,
    AccessSeq.of_reads bus slot func _ _ (raw_reads_length P bus slot func _ m.hw)⟩

theorem pciCheckVendor_access (P : PortHw σ) (m : Machine σ) (bus slot : Nat)
    (hbus : bus < 256) (hslot : slot < 256) :
    AccessStep [(bus, slot, 0, 0)] m (pciCheckVendor P bus slot m).2 ∨
    AccessStep [(bus, slot, 0, 0), (bus, slot, 0, 2)] m (pciCheckVendor P bus slot m).2 := by
  have h0 := pciConfigReadWord_access P m bus slot 0 0 hbus hslot (by decide) (by decide)
  unfold pciCheckVendor
  simp only [u8_of_lt (x := bus) hbus, u8_of_lt (x := slot) hslot]
  split
  · exact Or.inr (AccessStep.trans_step h0
      (pciConfigReadWord_access P _ bus slot 0 2 hbus hslot (by decide) (by decide)))
  · exact Or.inl h0

/-- One iteration of the scan over any hardware makes the probe access and, if
the probe answered, the twelve header accesses of the same function. -/
theorem get_all_pci_devices_body_access (P : PortHw σ) (m : Machine σ) (bus slot func : Nat)
    (hbus : bus < 256) (hslot : slot < 256) (hfunc : func < 256) :
    ∃ present, AccessStep (probe_accesses bus slot func present) m
      (get_all_pci_devices_body P bus slot func m) := by
  have hr := pciConfigReadWord_access P m bus slot func 0 hbus hslot hfunc (by decide)
  have hd := get_pci_device_access P (pciConfigReadWord P bus slot func 0 m).2
    bus slot func hbus hslot hfunc
  unfold get_all_pci_devices_body
  simp only
  split
  · obtain ⟨ts, e, p⟩ := AccessStep.trans_step hr hd
    exact ⟨true, ts, e, p⟩
  · exact ⟨false, hr⟩

/-- The scan over any hardware makes exactly the accesses `scan_accesses present`
for some answer pattern `present`. -/
theorem scan_fold_access (P : PortHw σ) (m : Machine σ) :
    ∃ present, AccessStep (scan_accesses present) m (scan_fold P m) := by
  unfold scan_fold scan_accesses
  apply AccessStep.foldl_nodup (fun _ _ => false)
    (fun bus (K : Nat → Nat → Bool) => (List.range' 0 32).flatMap (fun slot =>
      (List.range' 0 8).flatMap (fun func => probe_accesses bus slot func (K slot func))))
    _ (List.range' 0 32) (List.nodup_range' 0 32)
  intro bus hbus m
  apply AccessStep.foldl_nodup (fun _ => false)
    (fun slot (K : Nat → Bool) =>
      (List.range' 0 8).flatMap (fun func => probe_accesses bus slot func (K func)))
    _ (List.range' 0 32) (List.nodup_range' 0 32)
  intro slot hslot m
  apply AccessStep.foldl_nodup false
    (fun func (present : Bool) => probe_accesses bus slot func present)
    _ (List.range' 0 8) (List.nodup_range' 0 8)
  intro func hfunc m
  rw [List.mem_range'_1] at hbus hslot hfunc
  exact get_all_pci_devices_body_access P m bus slot func (by omega) (by omega) (by omega)

/-- Claim C15: over any hardware, the part of the trace that each operation of the
module adds is protocol ordered against the logical accesses of that operation:
it consists of exactly these accesses in order, and every access to the data
port 0xCFC is immediately preceded by the write to the address port 0xCF8 of the
configuration address of that same access. The accesses are: the given
coordinates for a word read and a word write; offset 0, then possibly offset 2,
of function 0 for the vendor check; offsets 0x0, 0x2, ..., 0x16 for the header
read; offset 0x4 for the command register read, offset 0x4 twice (read, then
write) for its update, offset 0x6 for the status register read; and for the
scan, which finishes, the probe at offset 0 of every function in scan order,
each followed by the header accesses of that function if it answered. -/
theorem port_protocol_ordering (P : PortHw σ) (m : Machine σ)
    (bus slot func offset data command fuel : Nat)
    (hbus : bus < 256) (hslot : slot < 256) (hfunc : func < 256) (hoff : offset < 256)
    (hcommand : command < 2 ^ 16) (hfuel : 33 ≤ fuel) :
    (∃ ts, (pciConfigReadWord P bus slot func offset m).2.trace = m.trace ++ ts ∧
      protocol_ordered [(bus, slot, func, offset)] ts) ∧
    (∃ ts, (pciConfigWriteWord P bus slot func offset data m).trace = m.trace ++ ts ∧
      protocol_ordered [(bus, slot, func, offset)] ts) ∧
    (∃ ts, (pciCheckVendor P bus slot m).2.trace = m.trace ++ ts ∧
      (protocol_ordered [(bus, slot, 0, 0)] ts ∨
        protocol_ordered [(bus, slot, 0, 0), (bus, slot, 0, 2)] ts)) ∧
    (∃ ts, (get_pci_device P bus slot func m).2.trace = m.trace ++ ts ∧
      protocol_ordered
        [(bus, slot, func, 0x0), (bus, slot, func, 0x2), (bus, slot, func, 0x4),
         (bus, slot, func, 0x6), (bus, slot, func, 0x8), (bus, slot, func, 0xA),
         (bus, slot, func, 0xC), (bus, slot, func, 0xE), (bus, slot, func, 0x10),
         (bus, slot, func, 0x12), (bus, slot, func, 0x14), (bus, slot, func, 0x16)] ts) ∧
    (∃ ts, (get_pci_command_register P bus slot func m).2.trace = m.trace ++ ts ∧
      protocol_ordered [(bus, slot, func, 0x4)] ts) ∧
    (∃ ts, (set_pci_command_register P bus slot func command m).trace = m.trace ++ ts ∧
      protocol_ordered [(bus, slot, func, 0x4), (bus, slot, func, 0x4)] ts) ∧
    (∃ ts, (get_pci_status_register P bus slot func m).2.trace = m.trace ++ ts ∧
      protocol_ordered [(bus, slot, func, 0x6)] ts) ∧
    (∃ m2 ts present, get_all_pci_devices P fuel m = some m2 ∧ m2.trace = m.trace ++ ts ∧
      protocol_ordered (scan_accesses present) ts) := by
  refine ⟨?_, ?_, ?_, ?_, ?_, ?_, ?_, ?_⟩
  · exact (pciConfigReadWord_access P m bus slot func offset hbus hslot hfunc hoff).ordered_step
  · exact (pciConfigWriteWord_access P m bus slot func offset data hbus hslot hfunc
      hoff).ordered_step
  · rcases pciCheckVendor_access P m bus slot hbus hslot with h | h
    · obtain ⟨ts, e, p⟩ := h
      exact ⟨ts, e, Or.inl p.ordered_seq⟩
    · obtain ⟨ts, e, p⟩ := h
      exact ⟨ts, e, Or.inr p.ordered_seq⟩
  · exact (get_pci_device_access P m bus slot func hbus hslot hfunc).ordered_step
  · have h := pciConfigReadWord_access P m bus slot func 0x4 hbus hslot hfunc (by decide)
    unfold get_pci_command_register
    simp only [u8_of_lt (x := bus) hbus, u8_of_lt (x := slot) hslot,
      u8_of_lt (x := func) hfunc]
    exact h.ordered_step
  · refine ⟨_, set_pci_command_register_eq P m bus slot func command hbus hslot hfunc
      hcommand, ?_⟩
    exact (AccessSeq.read (bus, slot, func, 0x4) _ _ _
      (AccessSeq.write (bus, slot, func, 0x4) _ _ _ AccessSeq.nil)).ordered_seq
  · have h := pciConfigReadWord_access P m bus slot func 0x6 hbus hslot hfunc (by decide)
    unfold get_pci_status_register
    simp only [u8_of_lt (x := bus) hbus, u8_of_lt (x := slot) hslot,
      u8_of_lt (x := func) hfunc]
    exact h.ordered_step
  · obtain ⟨present, ts, e, p⟩ := scan_fold_access P m
    exact ⟨_, ts, present, get_all_pci_devices_eq P fuel m hfuel, e, p.ordered_seq⟩

/-- Witness for C15: the command register update at bus 0, slot 5, function 0,
whose data-port read and data-port write both follow the address of offset 0x4. -/
theorem port_protocol_ordering_witness :
    ∃ ts, (set_pci_command_register absent_hw 0 5 0 0x0007 (boot ())).trace =
        (boot ()).trace ++ ts ∧
      protocol_ordered [(0, 5, 0, 0x4), (0, 5, 0, 0x4)] ts :=
  (port_protocol_ordering absent_hw (boot ()) 0 5 0 0x4 0xAB01 0x0007 33
    (by decide) (by decide) (by decide) (by decide) (by decide) (by decide)).2.2.2.2.2.1

end Pci
